import Mathlib

/-!
# Verification of the OWL predictor (`predictor.py`)

This file gives a shallow embedding of the predictor's data model and of the
operations relevant to the specification, and proves (or refutes) the stated
properties about them.

Conventions of the embedding:
* Python `int` counters become `ℤ`; per-game probabilities (`float`) become
  `ℚ` so that distributions can be evaluated exactly; the only genuinely real
  valued quantities (TrueSkill ratings, the normal CDF, the logarithmic score)
  become `ℝ`.
* A `defaultdict(int)` becomes a total function into `ℤ` (reads of missing
  keys yield `0` in Python, matching the function's value).
* A probability table (`defaultdict(float)` keyed by scores) becomes a list of
  `(score, mass)` contributions; the Python dict's value at a key is the sum
  of that key's contributions (`probOf` below).
-/

namespace Owl

/-- Team (and player) identifiers are opaque strings. -/
abbrev Team := String

/-- Python's `needle in hay` on strings: substring (contiguous infix) test.
The empty needle is contained in every string. -/
def strIn (needle hay : String) : Bool :=
  go needle.data hay.data
where
  go : List Char → List Char → Bool
  | n, [] => n.isEmpty
  | n, c :: t => n.isPrefixOf (c :: t) || go n t

/-- Python's `s.startswith(p)`: string prefix test (kernel-reducible,
unlike `String.startsWith`). -/
def pyStartsWith (s p : String) : Bool :=
  p.data.isPrefixOf s.data

/-- A player lineup (`Roster` in the source): a list of player names. -/
abbrev Roster := List String

/-- The set of players eligible for a team (`FullRoster` in the source). -/
abbrev FullRoster := List String

/-- One completed (or upcoming) game, as consumed by the predictor
(attributes of `game.Game` that `predictor.py` reads). -/
structure Game where
  teams : Team × Team
  rosters : Roster × Roster
  full_rosters : FullRoster × FullRoster
  score : ℤ × ℤ
  stage : String
  match_id : ℤ
  match_format : String
  drawable : Bool
deriving DecidableEq

/-- The mutable state of `Predictor.__init__`.  Rating-model state lives in
the subclasses and is embedded separately. -/
@[ext]
structure PredictorState where
  roster_queue_size : ℕ
  roster_queues : Team → List Roster
  last_full_rosters : Team → FullRoster
  -- Season standings.
  wins : Team → ℤ
  losses : Team → ℤ
  map_diffs : Team → ℤ
  head_to_head_diffs : Team × Team → ℤ
  head_to_head_map_diffs : Team × Team → ℤ
  -- Stage standings.
  stage : Option String
  base_stage : Option String
  stage_wins : Team → ℤ
  stage_losses : Team → ℤ
  stage_map_diffs : Team → ℤ
  stage_head_to_head_map_diffs : Team × Team → ℤ
  stage_title_wins : Team → ℤ
  stage_title_losses : Team → ℤ
  playoff_wins : Team → ℤ
  playoff_losses : Team → ℤ
  -- Match standings.  `score` is the running per-match tally; `scores` keeps
  -- the tally recorded for each match id (in the source `scores[match_id]`
  -- aliases `score`, so both are written together below).
  match_id : Option ℤ
  score : Team → ℤ
  scores : ℤ → Option (Team → ℤ)
  match_history : Option String → Team → List ℤ
  -- Draw counts.
  expected_draws : ℚ
  real_draws : ℚ
  -- Evaluation history.
  points : List ℝ
  corrects : List Bool

/-- The state produced by `Predictor.__init__` (all counters zero / empty). -/
def initState (roster_queue_size : ℕ) : PredictorState where
  roster_queue_size := roster_queue_size
  roster_queues := fun _ => []
  last_full_rosters := fun _ => []
  wins := fun _ => 0
  losses := fun _ => 0
  map_diffs := fun _ => 0
  head_to_head_diffs := fun _ => 0
  head_to_head_map_diffs := fun _ => 0
  stage := none
  base_stage := none
  stage_wins := fun _ => 0
  stage_losses := fun _ => 0
  stage_map_diffs := fun _ => 0
  stage_head_to_head_map_diffs := fun _ => 0
  stage_title_wins := fun _ => 0
  stage_title_losses := fun _ => 0
  playoff_wins := fun _ => 0
  playoff_losses := fun _ => 0
  match_id := none
  score := fun _ => 0
  scores := fun _ => none
  match_history := fun _ _ => []
  expected_draws := 0
  real_draws := 0
  points := []
  corrects := []

/-- Add `d` to the counter of key `t` (a `defaultdict` `+=`). -/
def bump (f : Team → ℤ) (t : Team) (d : ℤ) : Team → ℤ :=
  fun u => if u = t then f u + d else f u

/-- Add `d` to the counter of a key pair. -/
def bump2 (f : Team × Team → ℤ) (p : Team × Team) (d : ℤ) : Team × Team → ℤ :=
  fun q => if q = p then f q + d else f q

/-- `Predictor._update_stage`. -/
def updateStage (st : PredictorState) (stage : String) : PredictorState :=
  if st.stage = some stage then st
  else if (match st.stage with
           | some s => pyStartsWith stage s
           | none => false) then
    -- Entering the title matches.
    { st with base_stage := st.stage, stage := some stage }
  else
    -- Entering a new stage.
    { st with base_stage := some stage, stage := some stage,
              stage_wins := fun _ => 0,
              stage_losses := fun _ => 0,
              stage_map_diffs := fun _ => 0,
              stage_head_to_head_map_diffs := fun _ => 0,
              stage_title_wins := fun _ => 0,
              stage_title_losses := fun _ => 0 }

/-- `self.match_history[stage][team].append(mid)`. -/
def appendHist (h : Option String → Team → List ℤ) (stage : Option String)
    (t : Team) (mid : ℤ) : Option String → Team → List ℤ :=
  fun os u => if os = stage ∧ u = t then h os u ++ [mid] else h os u

/-- `Predictor._update_match_ids`.  The source sets `self.score` to a fresh
two-key zero dict; since it is only ever read at the match's own teams we
embed it as the zero function. -/
def updateMatchIds (st : PredictorState) (mid : ℤ) (teams : Team × Team) :
    PredictorState :=
  if st.match_id = some mid then st
  else
    { st with match_id := some mid,
              score := fun _ => 0,
              scores := fun m => if m = mid then some (fun _ => 0) else st.scores m,
              match_history :=
                appendHist (appendHist st.match_history st.stage teams.1 mid)
                  st.stage teams.2 mid }

/-- The effect of one non-drawn game on one win/loss-style counter pair (the
`if`/`elif` on the recorded match tally in `_update_standings`): if the
winner's tally equals the loser's, the match result is credited (`bump p`
by `+1`); if the winner had fallen one game behind, the premature credit is
reversed (`bump q` by `-1`); otherwise nothing changes.  `p`/`q` are the
teams credited/reversed (winner/loser for a "wins" counter, loser/winner
for a "losses" counter), `u`/`v` the winner's and loser's recorded tallies,
and `g` the format guard of the corresponding `elif` branch. -/
def creditF (F : Team → ℤ) (p q : Team) (u v : ℤ) (g : Bool) : Team → ℤ :=
  if u = v then (if g then bump F p 1 else F)
  else if u = v - 1 then (if g then bump F q (-1) else F)
  else F

/-- The effect of one non-drawn game on the season head-to-head diff: the
source adds `+1` for `(winner, loser)` and `-1` for `(loser, winner)` in
*both* the credit and the reversal branch. -/
def h2hF (F : Team × Team → ℤ) (w l : Team) (u v : ℤ) (g : Bool) :
    Team × Team → ℤ :=
  if u = v ∨ u = v - 1 then
    (if g then bump2 (bump2 F (w, l) 1) (l, w) (-1) else F)
  else F

/-- The body of `Predictor._update_standings` after the winner and loser of a
non-drawn game have been resolved (source lines 590-641).  The source is an
`if`/`elif` tree mutating several `defaultdict`s; here the same tree is
regrouped per field: the map-diff counters are bumped unconditionally for a
regular game, and each win/loss-style counter follows the credit/reversal
pattern `creditF` with the format guard of its `elif` branch
(`is_regular`, then `elif is_title`, then `elif is_playoff`).  The final
two fields perform `self.score[winner] += 1`, which in the source also
mutates the aliased entry `self.scores[self.match_id]`. -/
def applyResult (st : PredictorState) (winner loser : Team)
    (is_regular is_title is_playoff : Bool) : PredictorState :=
  { st with
    map_diffs :=
      if is_regular then bump (bump st.map_diffs winner 1) loser (-1)
      else st.map_diffs,
    head_to_head_map_diffs :=
      if is_regular then
        bump2 (bump2 st.head_to_head_map_diffs (winner, loser) 1) (loser, winner) (-1)
      else st.head_to_head_map_diffs,
    stage_map_diffs :=
      if is_regular then bump (bump st.stage_map_diffs winner 1) loser (-1)
      else st.stage_map_diffs,
    stage_head_to_head_map_diffs :=
      if is_regular then
        bump2 (bump2 st.stage_head_to_head_map_diffs (winner, loser) 1) (loser, winner) (-1)
      else st.stage_head_to_head_map_diffs,
    wins := creditF st.wins winner loser (st.score winner) (st.score loser)
      is_regular,
    losses := creditF st.losses loser winner (st.score winner) (st.score loser)
      is_regular,
    head_to_head_diffs := h2hF st.head_to_head_diffs winner loser
      (st.score winner) (st.score loser) is_regular,
    stage_wins := creditF st.stage_wins winner loser (st.score winner)
      (st.score loser) is_regular,
    stage_losses := creditF st.stage_losses loser winner (st.score winner)
      (st.score loser) is_regular,
    stage_title_wins := creditF st.stage_title_wins winner loser
      (st.score winner) (st.score loser) (!is_regular && is_title),
    stage_title_losses := creditF st.stage_title_losses loser winner
      (st.score winner) (st.score loser) (!is_regular && is_title),
    playoff_wins := creditF st.playoff_wins winner loser
      (st.score winner) (st.score loser) (!is_regular && !is_title && is_playoff),
    playoff_losses := creditF st.playoff_losses loser winner
      (st.score winner) (st.score loser) (!is_regular && !is_title && is_playoff),
    score := bump st.score winner 1,
    scores := fun mm =>
      if some mm = st.match_id then some (bump st.score winner 1)
      else st.scores mm }

/-- `Predictor._update_standings`: resolve the stage transition and match
identity, then (for a non-drawn game) pick winner and loser from the map
score and apply the result. -/
def updateStandings (st : PredictorState) (g : Game) : PredictorState :=
  if g.score.1 = g.score.2 then
    updateMatchIds (updateStage st g.stage) g.match_id g.teams
  else if g.score.2 < g.score.1 then
    applyResult (updateMatchIds (updateStage st g.stage) g.match_id g.teams)
      g.teams.1 g.teams.2 (g.match_format = "regular")
      (strIn "Title" g.stage) (g.match_format = "playoff")
  else
    applyResult (updateMatchIds (updateStage st g.stage) g.match_id g.teams)
      g.teams.2 g.teams.1 (g.match_format = "regular")
      (strIn "Title" g.stage) (g.match_format = "playoff")

/-- Feed a sequence of games through `_update_standings`, one at a time. -/
def processGames (st : PredictorState) (l : List Game) : PredictorState :=
  l.foldl updateStandings st

/-! ## Score-distribution builder (`_predict_bo_score`, `predict_match_score`) -/

/-- A score distribution: contributions `(score, mass)`; the Python
`defaultdict(float)` value at a key is the sum of that key's contributions. -/
abbrev PScores := List ((ℕ × ℕ) × ℚ)

/-- The running state of the loop in `_predict_bo_score`: the live in-progress
scores, the accumulated finished scores, and the Python local `p_loss`
(which, in the source, retains its value from the last loop iteration when
the tie-breaker block runs). -/
structure BoAcc where
  live : PScores
  finished : PScores
  p_loss : ℚ

/-- The live successors of one in-progress score for one scheduled game:
the winner-side and loser-side branches that have not reached `max_wins`,
plus (for a drawable game) the unchanged-score draw branch. -/
def boLiveOut (pw pl pdr : ℚ) (max_wins : ℕ) (drawable : Bool)
    (e : (ℕ × ℕ) × ℚ) : PScores :=
  (if e.1.1 + 1 = max_wins then [] else [((e.1.1 + 1, e.1.2), e.2 * pw)]) ++
  (if e.1.2 + 1 = max_wins then [] else [((e.1.1, e.1.2 + 1), e.2 * pl)]) ++
  (if drawable then [((e.1.1, e.1.2), e.2 * pdr)] else [])

/-- The finished successors of one in-progress score for one scheduled game:
the branches that reach `max_wins`. -/
def boFinOut (pw pl : ℚ) (max_wins : ℕ) (e : (ℕ × ℕ) × ℚ) : PScores :=
  (if e.1.1 + 1 = max_wins then [((e.1.1 + 1, e.1.2), e.2 * pw)] else []) ++
  (if e.1.2 + 1 = max_wins then [((e.1.1, e.1.2 + 1), e.2 * pl)] else [])

/-- One scheduled game of the loop in `_predict_bo_score`. -/
def boGameStep (p_undrawable p_drawable : ℚ × ℚ) (max_wins : ℕ)
    (acc : BoAcc) (drawable : Bool) : BoAcc :=
  let pw := (if drawable then p_drawable else p_undrawable).1
  let pdr := (if drawable then p_drawable else p_undrawable).2
  let pl := 1 - pw - pdr
  { live := acc.live.flatMap (boLiveOut pw pl pdr max_wins drawable),
    finished := acc.finished ++ acc.live.flatMap (boFinOut pw pl max_wins),
    p_loss := pl }

/-- The tie-breaker pass of `_predict_bo_score`: every still-level live score
is split by one undrawable game; every other live score is kept as is. -/
def boTieBreak (pw pl : ℚ) (l : PScores) : PScores :=
  l.flatMap fun e =>
    if e.1.1 = e.1.2 then
      [((e.1.1 + 1, e.1.2), e.2 * pw), ((e.1.1, e.1.2 + 1), e.2 * pl)]
    else [e]

/-- `Predictor._predict_bo_score`, with the two per-game probability pairs
(the results of the two `self.predict` calls at the top of the method) taken
as arguments.  The tie-breaker uses `p_undrawable`'s win probability but the
*stale* `p_loss` of the last loop iteration (the source never recomputes
`p_loss` after reassigning `p_win, p_draw = p_undrawable`).  The initial `0`
for `p_loss` is never used: every caller passes a non-empty `drawables`, and
the source's `p_loss` is simply undefined before the first loop iteration. -/
def predictBoScore (p_undrawable p_drawable : ℚ × ℚ) (drawables : List Bool)
    (max_wins : ℕ) : PScores :=
  let acc := drawables.foldl (boGameStep p_undrawable p_drawable max_wins)
    ⟨[((0, 0), 1)], [], 0⟩
  boTieBreak p_undrawable.1 acc.p_loss acc.live ++ acc.finished

/-- The format dispatch of `Predictor.predict_match_score`: `none` models the
`raise NotImplementedError` branch.  NOTE: the source's second and third
tests are `match.match_format in ('best-of-5')` and `... in ('best-of-7')`;
a parenthesised string is not a tuple in Python, so these are *substring*
tests against the string, which `strIn` reproduces. -/
def matchFormatParams (match_format : String) : Option (List Bool × ℕ) :=
  if match_format = "preseason" ∨ match_format = "regular" then
    some ([true, false, true, false], 4)
  else if strIn match_format "best-of-5" then
    some ([false, false, false, false, false], 3)
  else if strIn match_format "best-of-7" then
    some ([false, false, false, false, false, false, false], 4)
  else
    none

/-- `Predictor.predict_match_score`, with the per-game probability pairs as
arguments as in `predictBoScore`. -/
def predictMatchScore (p_undrawable p_drawable : ℚ × ℚ) (m : Game) :
    Option PScores :=
  (matchFormatParams m.match_format).map fun p =>
    predictBoScore p_undrawable p_drawable p.1 p.2

/-- The probability a distribution assigns to one final score. -/
def probOf (l : PScores) (s : ℕ × ℕ) : ℚ :=
  ((l.filter fun e => e.1 = s).map (·.2)).sum

/-- The total mass of a distribution (sum over all contributions). -/
def totalMass (l : PScores) : ℚ := (l.map (·.2)).sum

/-- The sum of the distribution's probabilities over its (distinct) reachable
final scores. -/
def scoreSum (l : PScores) : ℚ :=
  (((l.map (·.1)).dedup).map (probOf l)).sum

/-! ## Stage prediction post-processing (`predict_stage`) -/

/-- A stage-prediction entry: Python dynamically replaces the simulated
probability (a float) by a boolean when the outcome is already decided. -/
inductive PredVal where
  | prob (q : ℚ)
  | flag (b : Bool)
deriving DecidableEq

/-- `Predictor.stage_finished` relative to the closed team set. -/
def stageFinished (TEAMS : List Team) (st : PredictorState) : Bool :=
  (TEAMS.map st.stage_title_losses).sum == 3

/-- `min_wins[team] = (win + dw, map_diff + dm)` for one team. -/
def adjStanding (f : Team → ℤ × ℤ) (t : Team) (dw dm : ℤ) : Team → ℤ × ℤ :=
  fun u => if u = t then ((f u).1 + dw, (f u).2 + dm) else f u

/-- The filter at the top of `predict_stage`: remaining matches of the
current stage with the regular format. -/
def remainingRegular (st : PredictorState) (upcoming : List Game) : List Game :=
  upcoming.filter fun m => st.stage == some m.stage && m.match_format == "regular"

/-- Python tuple comparison on `(wins, map_diff)` standings: lexicographic. -/
def pairLe (a b : ℤ × ℤ) : Prop := toLex a ≤ toLex b

/-- Strict lexicographic comparison on standings. -/
def pairLt (a b : ℤ × ℤ) : Prop := toLex a < toLex b

instance : DecidableRel pairLe := fun a b =>
  inferInstanceAs (Decidable (toLex a ≤ toLex b))

instance : DecidableRel pairLt := fun a b =>
  inferInstanceAs (Decidable (toLex a < toLex b))

instance : IsTotal (ℤ × ℤ) pairLe := ⟨fun a b => le_total (toLex a) (toLex b)⟩

instance : IsTrans (ℤ × ℤ) pairLe := ⟨fun _ _ _ hab hbc => le_trans hab hbc⟩

instance : IsRefl (ℤ × ℤ) pairLe := ⟨fun a => le_refl (toLex a)⟩

instance : IsAntisymm (ℤ × ℤ) pairLe :=
  ⟨fun _ _ hab hba => toLex.injective (le_antisymm hab hba)⟩

theorem pairLe_trans {a b c : ℤ × ℤ} (h1 : pairLe a b) (h2 : pairLe b c) :
    pairLe a c := le_trans h1 h2

theorem pairLt_of_lt_of_le {a b c : ℤ × ℤ} (h1 : pairLt a b) (h2 : pairLe b c) :
    pairLt a c := lt_of_lt_of_le h1 h2

theorem pairLt_of_le_of_lt {a b c : ℤ × ℤ} (h1 : pairLe a b) (h2 : pairLt b c) :
    pairLt a c := lt_of_le_of_lt h1 h2

theorem pairLe_of_lt {a b : ℤ × ℤ} (h : pairLt a b) : pairLe a b := le_of_lt h

theorem pairLt_irrefl (a : ℤ × ℤ) : ¬pairLt a a := lt_irrefl (toLex a)

/-- `sorted(vals)[-k]`: the `k`-th largest value of a list of standings
(ascending sort, index `length - k`). -/
def nthLargestVal (L : List (ℤ × ℤ)) (k : ℕ) : ℤ × ℤ :=
  (L.insertionSort pairLe).getD (L.length - k) (0, 0)

/-- How many of the remaining matches a team appears in (counting a
hypothetical double appearance twice, as the source's per-team loop does). -/
def creditCount (ms : List Game) (t : Team) : ℤ :=
  (ms.map fun m =>
    ((if t = m.teams.1 then 1 else 0) + (if t = m.teams.2 then 1 else 0) : ℤ)).sum

/-- The `min_wins` table of `predict_stage`: the current standing with 4 maps
docked per remaining match. -/
def stageMinWins (st : PredictorState) (ms : List Game) : Team → ℤ × ℤ :=
  ms.foldl
    (fun acc m => adjStanding (adjStanding acc m.teams.1 0 (-4)) m.teams.2 0 (-4))
    fun t => (st.stage_wins t, st.stage_map_diffs t)

/-- The `max_wins` table of `predict_stage`: the current standing with one
win and 4 maps credited per remaining match. -/
def stageMaxWins (st : PredictorState) (ms : List Game) : Team → ℤ × ℤ :=
  ms.foldl
    (fun acc m => adjStanding (adjStanding acc m.teams.1 1 4) m.teams.2 1 4)
    fun t => (st.stage_wins t, st.stage_map_diffs t)

/-- The `k`-th largest entry of a standings table over the team set. -/
def nthLargest (TEAMS : List Team) (f : Team → ℤ × ℤ) (k : ℕ) : ℤ × ℤ :=
  nthLargestVal (TEAMS.map f) k

/-- The post-processing ("Normalize 0% and 100% for predictions") of
`Predictor.predict_stage`, with the Monte-Carlo output `prediction` (the
result of `_predict_stage`, keyed by the closed team set `TEAMS`) as an
argument. -/
def predictStagePost (TEAMS : List Team) (st : PredictorState)
    (upcoming : List Game) (prediction : Team → PredVal × PredVal) :
    Team → PredVal × PredVal :=
  fun t =>
    if t ∈ TEAMS then
      if pairLt (stageMaxWins st (remainingRegular st upcoming) t)
          (nthLargest TEAMS (stageMinWins st (remainingRegular st upcoming)) 8) then
        (.flag false, .flag false)
      else if pairLt (nthLargest TEAMS (stageMaxWins st (remainingRegular st upcoming)) 9)
          (stageMinWins st (remainingRegular st upcoming) t) then
        (.flag true,
         if 0 < st.stage_title_losses t then .flag false
         else if stageFinished TEAMS st then .flag true
         else (prediction t).2)
      else prediction t
    else prediction t

/-! ## Evaluation and training loop (`evaluate`, `train`) -/

/-- `Predictor.evaluate`.  `predict` is the abstract
`self.predict(teams, rosters=..., drawable=...)` of the subclass in use. -/
noncomputable def evaluate
    (predict : Team × Team → Roster × Roster → Bool → ℚ × ℚ) (g : Game) :
    ℝ × Bool :=
  if g.score.1 = g.score.2 then (0, false)
  else
    let p := predict g.teams g.rosters false
    let p_win := max 0 (min p.1 1)
    let p_draw := max 0 (min p.2 1)
    let p_loss := 1 - p_win - p_draw
    if g.score.2 < g.score.1 then
      (Real.log (2 * (p_win : ℝ)), decide (p_loss < p_win))
    else
      (Real.log (2 * (p_loss : ℝ)), decide (p_win < p_loss))

/-- `deque.appendleft` with `maxlen` on one team's roster queue. -/
def pushRoster (size : ℕ) (q : Team → List Roster) (t : Team) (r : Roster) :
    Team → List Roster :=
  fun u => if u = t then (r :: q u).take size else q u

/-- Plain dict write `last_full_rosters[team] = full_roster`. -/
def setFull (f : Team → FullRoster) (t : Team) (fr : FullRoster) :
    Team → FullRoster :=
  fun u => if u = t then fr else f u

/-- `Predictor._update_rosters`. -/
def updateRosters (st : PredictorState) (g : Game) : PredictorState :=
  { st with
    roster_queues :=
      pushRoster st.roster_queue_size
        (pushRoster st.roster_queue_size st.roster_queues g.teams.1 g.rosters.1)
        g.teams.2 g.rosters.2,
    last_full_rosters :=
      setFull (setFull st.last_full_rosters g.teams.1 g.full_rosters.1)
        g.teams.2 g.full_rosters.2 }

/-- `Predictor._update_draws`. -/
def updateDraws (predict : Team × Team → Roster × Roster → Bool → ℚ × ℚ)
    (st : PredictorState) (g : Game) : PredictorState :=
  let st1 :=
    if g.drawable then
      { st with expected_draws :=
          st.expected_draws + (predict g.teams g.rosters true).2 }
    else st
  if g.score.1 = g.score.2 then { st1 with real_draws := st1.real_draws + 1 }
  else st1

/-- `Predictor.train`: score the game, append the point and correctness flag
to the evaluation history, then update rosters, standings and draw counts
and train the model.  `trainModel` is the subclass's `self._train`. -/
noncomputable def train
    (predict : Team × Team → Roster × Roster → Bool → ℚ × ℚ)
    (trainModel : PredictorState → Game → PredictorState)
    (st : PredictorState) (g : Game) : PredictorState :=
  trainModel
    (updateDraws predict
      (updateStandings
        (updateRosters
          { st with points := st.points ++ [(evaluate predict g).1],
                    corrects := st.corrects ++ [(evaluate predict g).2] } g) g) g) g

/-! ## TrueSkill rating engine (`TrueSkillPredictor`) -/

/-- A TrueSkill rating: mean and uncertainty. -/
structure Rating where
  mu : ℝ
  sigma : ℝ

/-- The standard normal density. -/
noncomputable def normPdf (x : ℝ) : ℝ :=
  Real.exp (-x ^ 2 / 2) / Real.sqrt (2 * Real.pi)

/-- The standard normal CDF (the `env.cdf` of the trueskill library). -/
noncomputable def normCdf (x : ℝ) : ℝ :=
  (∫ t in Set.Iic x, Real.exp (-t ^ 2 / 2)) / Real.sqrt (2 * Real.pi)

/-- An inverse of `normCdf` (the `env.ppf` of the trueskill library),
modelled as a choice-based left inverse; no property of it is needed. -/
noncomputable def normPpf : ℝ → ℝ := Function.invFun normCdf

/-- Modelled from the spec: `trueskill.calc_draw_margin`, the
"draw-margin-from-draw-probability inversion" of the external rating
library: `ppf((p_draw + 1) / 2) * sqrt(size) * beta`.  The library is not
part of this repository; only the fact that the margin does not depend on
the team order is used below. -/
noncomputable def calcDrawMargin (draw_probability : ℝ) (size : ℕ) (beta : ℝ) : ℝ :=
  normPpf ((draw_probability + 1) / 2) * Real.sqrt (size : ℝ) * beta

/-- The state of a `TrueSkillPredictor`: its environment parameters and the
team-rating store (`self.ratings`, a defaultdict whose default is the
environment prior). -/
structure TrueSkillState where
  mu : ℝ
  sigma : ℝ
  beta : ℝ
  tau : ℝ
  draw_probability : ℝ
  ratings : Team → Rating

/-- `TrueSkillPredictor.predict` (team-level variant: one rating per side,
so `size = 2`).  The drawable flag selects between the two environments,
which differ only in their configured draw probability (`0.0` when
undrawable). -/
noncomputable def predictTS (st : TrueSkillState) (teams : Team × Team)
    (drawable : Bool) : ℝ × ℝ :=
  let dp := if drawable then st.draw_probability else 0
  let r1 := st.ratings teams.1
  let r2 := st.ratings teams.2
  let size : ℕ := 2
  let delta_mu := r1.mu - r2.mu
  let draw_margin := calcDrawMargin dp size st.beta
  let sum_sigma := r1.sigma ^ 2 + r2.sigma ^ 2
  let denom := Real.sqrt ((size : ℝ) * st.beta ^ 2 + sum_sigma)
  let p_win := normCdf ((delta_mu - draw_margin) / denom)
  let p_not_loss := normCdf ((delta_mu + draw_margin) / denom)
  (p_win, p_not_loss - p_win)

/-- Modelled from the spec: the closed-form Bayesian posterior-mean/variance
update of the external trueskill library's `env.rate` for two one-player
teams, first team winning, zero draw margin (the undrawable environment).
`tau` is the rating-volatility parameter added to each variance before the
update. -/
noncomputable def rate2Win (beta tau : ℝ) (w l : Rating) : Rating × Rating :=
  let sw2 := w.sigma ^ 2 + tau ^ 2
  let sl2 := l.sigma ^ 2 + tau ^ 2
  let c := Real.sqrt (2 * beta ^ 2 + sw2 + sl2)
  let t := (w.mu - l.mu) / c
  let v := normPdf t / normCdf t
  let wt := v * (v + t)
  (⟨w.mu + sw2 / c * v, Real.sqrt (sw2 * (1 - sw2 / c ^ 2 * wt))⟩,
   ⟨l.mu - sl2 / c * v, Real.sqrt (sl2 * (1 - sl2 / c ^ 2 * wt))⟩)

/-- `TrueSkillPredictor._train` (with the team-level `_teams_ratings` /
`_update_teams_ratings`) specialised to undrawable games; only the decisive
case is modelled (drawn games use the drawable environment's closed forms,
which no claim needs). -/
noncomputable def trainTSUndrawable (st : TrueSkillState) (g : Game) :
    TrueSkillState :=
  if g.score.2 < g.score.1 then
    let p := rate2Win st.beta st.tau (st.ratings g.teams.1) (st.ratings g.teams.2)
    { st with ratings :=
        Function.update (Function.update st.ratings g.teams.1 p.1) g.teams.2 p.2 }
  else if g.score.1 < g.score.2 then
    let p := rate2Win st.beta st.tau (st.ratings g.teams.2) (st.ratings g.teams.1)
    { st with ratings :=
        Function.update (Function.update st.ratings g.teams.1 p.2) g.teams.2 p.1 }
  else st

/-! ## Small facts about the state-update functions -/

theorem updateStage_of_eq (st : PredictorState) (s : String)
    (h : st.stage = some s) : updateStage st s = st := by
  unfold updateStage
  rw [if_pos h]

theorem updateStage_title (st : PredictorState) (s s0 : String)
    (h : st.stage = some s0) (hne : st.stage ≠ some s)
    (hpre : pyStartsWith s s0 = true) :
    updateStage st s = { st with base_stage := st.stage, stage := some s } := by
  unfold updateStage
  rw [if_neg hne, if_pos]
  rw [h]
  exact hpre

theorem updateMatchIds_frame (st : PredictorState) (mid : ℤ) (tms : Team × Team) :
    (updateMatchIds st mid tms).wins = st.wins ∧
    (updateMatchIds st mid tms).losses = st.losses ∧
    (updateMatchIds st mid tms).map_diffs = st.map_diffs ∧
    (updateMatchIds st mid tms).head_to_head_diffs = st.head_to_head_diffs ∧
    (updateMatchIds st mid tms).head_to_head_map_diffs = st.head_to_head_map_diffs ∧
    (updateMatchIds st mid tms).stage = st.stage ∧
    (updateMatchIds st mid tms).base_stage = st.base_stage ∧
    (updateMatchIds st mid tms).stage_wins = st.stage_wins ∧
    (updateMatchIds st mid tms).stage_losses = st.stage_losses ∧
    (updateMatchIds st mid tms).stage_map_diffs = st.stage_map_diffs ∧
    (updateMatchIds st mid tms).stage_head_to_head_map_diffs = st.stage_head_to_head_map_diffs ∧
    (updateMatchIds st mid tms).stage_title_wins = st.stage_title_wins ∧
    (updateMatchIds st mid tms).stage_title_losses = st.stage_title_losses ∧
    (updateMatchIds st mid tms).playoff_wins = st.playoff_wins ∧
    (updateMatchIds st mid tms).playoff_losses = st.playoff_losses ∧
    (updateMatchIds st mid tms).points = st.points ∧
    (updateMatchIds st mid tms).corrects = st.corrects := by
  unfold updateMatchIds
  split <;> exact ⟨rfl, rfl, rfl, rfl, rfl, rfl, rfl, rfl, rfl, rfl, rfl, rfl,
    rfl, rfl, rfl, rfl, rfl⟩

theorem updateStage_points (st : PredictorState) (s : String) :
    (updateStage st s).points = st.points ∧
    (updateStage st s).corrects = st.corrects := by
  unfold updateStage
  split
  · exact ⟨rfl, rfl⟩
  · split <;> exact ⟨rfl, rfl⟩

theorem applyResult_points (st : PredictorState) (w l : Team)
    (r t p : Bool) :
    (applyResult st w l r t p).points = st.points ∧
    (applyResult st w l r t p).corrects = st.corrects :=
  ⟨rfl, rfl⟩

theorem updateStandings_points (st : PredictorState) (g : Game) :
    (updateStandings st g).points = st.points ∧
    (updateStandings st g).corrects = st.corrects := by
  obtain ⟨hp, hc⟩ := updateStage_points st g.stage
  obtain ⟨-, -, -, -, -, -, -, -, -, -, -, -, -, -, -, hpts, hcor⟩ :=
    updateMatchIds_frame (updateStage st g.stage) g.match_id g.teams
  unfold updateStandings
  split_ifs <;> exact ⟨hpts.trans hp, hcor.trans hc⟩

theorem updateDraws_points (predict : Team × Team → Roster × Roster → Bool → ℚ × ℚ)
    (st : PredictorState) (g : Game) :
    (updateDraws predict st g).points = st.points ∧
    (updateDraws predict st g).corrects = st.corrects := by
  unfold updateDraws
  split <;> split <;> exact ⟨rfl, rfl⟩

/-! ## Gaussian facts for the TrueSkill claims -/

open MeasureTheory in
theorem gauss_eq : (fun t : ℝ => Real.exp (-t ^ 2 / 2)) =
    fun t : ℝ => Real.exp (-(1 / 2 : ℝ) * t ^ 2) := by
  funext t
  ring_nf

open MeasureTheory in
theorem integrable_gauss : Integrable (fun t : ℝ => Real.exp (-t ^ 2 / 2)) := by
  rw [gauss_eq]
  exact integrable_exp_neg_mul_sq (by norm_num)

theorem integral_gauss_total :
    (∫ t : ℝ, Real.exp (-t ^ 2 / 2)) = Real.sqrt (2 * Real.pi) := by
  rw [gauss_eq, integral_gaussian]
  congr 1
  rw [div_div_eq_mul_div]
  ring_nf

theorem sqrt_two_pi_pos : 0 < Real.sqrt (2 * Real.pi) :=
  Real.sqrt_pos.mpr (by positivity)

/-- Reflection of the normal CDF, the only property of `env.cdf` the
symmetry claim needs. -/
theorem normCdf_neg (x : ℝ) : normCdf (-x) = 1 - normCdf x := by
  unfold normCdf
  have hrefl : (∫ t in Set.Iic (-x), Real.exp (-t ^ 2 / 2)) =
      ∫ t in Set.Ioi x, Real.exp (-t ^ 2 / 2) := by
    have h := integral_comp_neg_Iic (-x) (fun t => Real.exp (-t ^ 2 / 2))
    simp only [neg_sq, neg_neg] at h
    exact h
  have hsplit : (∫ t in Set.Iic x, Real.exp (-t ^ 2 / 2)) +
      (∫ t in Set.Ioi x, Real.exp (-t ^ 2 / 2)) =
      ∫ t : ℝ, Real.exp (-t ^ 2 / 2) :=
    intervalIntegral.integral_Iic_add_Ioi integrable_gauss.integrableOn
      integrable_gauss.integrableOn
  rw [hrefl, eq_sub_iff_add_eq, div_add_div_same, add_comm, hsplit,
    integral_gauss_total, div_self sqrt_two_pi_pos.ne']

theorem normCdf_pos (x : ℝ) : 0 < normCdf x := by
  unfold normCdf
  apply div_pos _ sqrt_two_pi_pos
  rw [MeasureTheory.setIntegral_pos_iff_support_of_nonneg_ae]
  · have hsupp : Function.support (fun t : ℝ => Real.exp (-t ^ 2 / 2)) =
        Set.univ := by
      ext t
      simp [Real.exp_ne_zero]
    rw [hsupp, Set.univ_inter, Real.volume_Iic]
    exact ENNReal.zero_lt_top
  · filter_upwards with t
    positivity
  · exact integrable_gauss.integrableOn

theorem normPdf_pos (x : ℝ) : 0 < normPdf x :=
  div_pos (Real.exp_pos _) sqrt_two_pi_pos

/-! ## Claim C3 -/

/-- C3: swapping the two teams in `TrueSkillPredictor.predict` complements
the win probability (`p_win(A,B) = 1 - p_win(B,A) - p_draw(A,B)`) and
leaves the draw probability unchanged, for every rating state and either
value of the drawable flag. -/
theorem claim3_predict_symmetry (st : TrueSkillState) (A B : Team)
    (hAB : A ≠ B) (drawable : Bool) :
    (predictTS st (A, B) drawable).1 =
      1 - (predictTS st (B, A) drawable).1 - (predictTS st (A, B) drawable).2 ∧
    (predictTS st (A, B) drawable).2 = (predictTS st (B, A) drawable).2 := by
  unfold predictTS
  dsimp only
  rw [show (st.ratings B).sigma ^ 2 + (st.ratings A).sigma ^ 2 =
    (st.ratings A).sigma ^ 2 + (st.ratings B).sigma ^ 2 from by ring]
  set m := calcDrawMargin (if drawable then st.draw_probability else 0) 2 st.beta
  set d := Real.sqrt (((2 : ℕ) : ℝ) * st.beta ^ 2 +
    ((st.ratings A).sigma ^ 2 + (st.ratings B).sigma ^ 2))
  set a := (st.ratings A).mu
  set b := (st.ratings B).mu
  rw [show (b - a - m) / d = -((a - b + m) / d) from by ring,
    show (b - a + m) / d = -((a - b - m) / d) from by ring,
    normCdf_neg, normCdf_neg]
  constructor <;> ring

/-- A default-parameter TrueSkill state with every team at the prior. -/
noncomputable def tsState : TrueSkillState :=
  { mu := 2500, sigma := 2500 / 3, beta := 2500 / 2, tau := 25 / 3,
    draw_probability := 6 / 100, ratings := fun _ => ⟨2500, 2500 / 3⟩ }

/-- Witness instantiating `claim3_predict_symmetry` at a concrete input. -/
theorem claim3_witness :
    ((predictTS tsState ("A", "B") true).1 =
      1 - (predictTS tsState ("B", "A") true).1 -
        (predictTS tsState ("A", "B") true).2 ∧
    (predictTS tsState ("A", "B") true).2 =
      (predictTS tsState ("B", "A") true).2) ∧
    ((predictTS tsState ("A", "B") false).1 =
      1 - (predictTS tsState ("B", "A") false).1 -
        (predictTS tsState ("A", "B") false).2 ∧
    (predictTS tsState ("A", "B") false).2 =
      (predictTS tsState ("B", "A") false).2) :=
  ⟨claim3_predict_symmetry tsState "A" "B" (by decide) true,
   claim3_predict_symmetry tsState "A" "B" (by decide) false⟩

/-! ## Claim C8 -/

theorem rate2Win_mu (beta tau : ℝ) (htau : 0 < tau) (w l : Rating) :
    w.mu < ((rate2Win beta tau w l).1).mu ∧
    ((rate2Win beta tau w l).2).mu < l.mu := by
  unfold rate2Win
  dsimp only
  have ht2 : 0 < tau ^ 2 := pow_pos htau 2
  have hsw : 0 < w.sigma ^ 2 + tau ^ 2 :=
    add_pos_of_nonneg_of_pos (sq_nonneg w.sigma) ht2
  have hsl : 0 < l.sigma ^ 2 + tau ^ 2 :=
    add_pos_of_nonneg_of_pos (sq_nonneg l.sigma) ht2
  have hb : (0 : ℝ) ≤ 2 * beta ^ 2 := by positivity
  have hc : 0 < Real.sqrt (2 * beta ^ 2 + (w.sigma ^ 2 + tau ^ 2) +
      (l.sigma ^ 2 + tau ^ 2)) := Real.sqrt_pos.mpr (by linarith)
  have hv : 0 < normPdf ((w.mu - l.mu) / Real.sqrt (2 * beta ^ 2 +
      (w.sigma ^ 2 + tau ^ 2) + (l.sigma ^ 2 + tau ^ 2))) /
      normCdf ((w.mu - l.mu) / Real.sqrt (2 * beta ^ 2 +
      (w.sigma ^ 2 + tau ^ 2) + (l.sigma ^ 2 + tau ^ 2))) :=
    div_pos (normPdf_pos _) (normCdf_pos _)
  constructor
  · have := mul_pos (div_pos hsw hc) hv
    linarith
  · have := mul_pos (div_pos hsl hc) hv
    linarith

/-- C8: for every rating state (with the positive volatility parameter
`tau` of the subject predictor) and every undrawable game recorded as a win
for the first team over the second, the `_train` rating update strictly
increases the winner's posterior mean and strictly decreases the loser's. -/
theorem claim8_update_monotone (st : TrueSkillState) (g : Game)
    (htau : 0 < st.tau) (hAB : g.teams.1 ≠ g.teams.2)
    (hwin : g.score.2 < g.score.1) (hundrawable : g.drawable = false) :
    (st.ratings g.teams.1).mu < ((trainTSUndrawable st g).ratings g.teams.1).mu ∧
    ((trainTSUndrawable st g).ratings g.teams.2).mu < (st.ratings g.teams.2).mu := by
  have h := rate2Win_mu st.beta st.tau htau (st.ratings g.teams.1)
    (st.ratings g.teams.2)
  unfold trainTSUndrawable
  rw [if_pos hwin]
  dsimp only
  rw [Function.update_noteq hAB, Function.update_same, Function.update_same]
  exact h

/-! ## Claim C2: order invariance of standings updates within one match -/

theorem bump_apply_self (f : Team → ℤ) (t : Team) (d : ℤ) :
    bump f t d t = f t + d := by
  simp [bump]

theorem bump_apply_ne (f : Team → ℤ) (t : Team) (d : ℤ) (u : Team)
    (h : u ≠ t) : bump f t d u = f u := by
  simp [bump, h]

theorem bump_comm (f : Team → ℤ) (t : Team) (d : ℤ) (t' : Team) (d' : ℤ) :
    bump (bump f t d) t' d' = bump (bump f t' d') t d := by
  funext u
  simp only [bump]
  split_ifs <;> ring

theorem bump2_comm (f : Team × Team → ℤ) (p : Team × Team) (d : ℤ)
    (p' : Team × Team) (d' : ℤ) :
    bump2 (bump2 f p d) p' d' = bump2 (bump2 f p' d') p d := by
  funext q
  simp only [bump2]
  split_ifs <;> ring

set_option maxHeartbeats 1000000 in
/-- Processing the eventual loser's win before the eventual winner's, or the
other way round, has the same net effect on a credit/reversal counter: the
premature credit is reversed exactly when the tallies demand it. -/
theorem creditF_swap (F : Team → ℤ) (A B : Team) (x y : ℤ) (g : Bool) :
    creditF (creditF F A B x y g) B A y (x + 1) g =
    creditF (creditF F B A y x g) A B x (y + 1) g := by
  unfold creditF
  split_ifs <;> first
    | rfl
    | omega
    | (funext u; simp only [bump]; split_ifs <;> ring)

set_option maxHeartbeats 1000000 in
theorem h2hF_swap (F : Team × Team → ℤ) (A B : Team) (x y : ℤ) (g : Bool) :
    h2hF (h2hF F A B x y g) B A y (x + 1) g =
    h2hF (h2hF F B A y x g) A B x (y + 1) g := by
  unfold h2hF
  split_ifs <;> first
    | rfl
    | omega
    | (funext q; simp only [bump2]; split_ifs <;> ring)

/-- Two games of the same match with opposite winners commute: `applyResult`
for the two orders produces identical states. -/
theorem applyResult_comm (st : PredictorState) (A B : Team) (hAB : A ≠ B)
    (r ti p : Bool) :
    applyResult (applyResult st A B r ti p) B A r ti p =
    applyResult (applyResult st B A r ti p) A B r ti p := by
  have hBA : B ≠ A := hAB.symm
  have hsB : bump st.score A 1 B = st.score B := bump_apply_ne _ _ _ _ hBA
  have hsA : bump st.score A 1 A = st.score A + 1 := bump_apply_self _ _ _
  have hsA' : bump st.score B 1 A = st.score A := bump_apply_ne _ _ _ _ hAB
  have hsB' : bump st.score B 1 B = st.score B + 1 := bump_apply_self _ _ _
  refine PredictorState.ext rfl rfl rfl ?_ ?_ ?_ ?_ ?_ rfl rfl ?_ ?_ ?_ ?_ ?_
    ?_ ?_ ?_ rfl ?_ ?_ rfl rfl rfl rfl rfl
  · dsimp only [applyResult]
    rw [hsB, hsA, hsA', hsB']
    exact creditF_swap st.wins A B (st.score A) (st.score B) r
  · dsimp only [applyResult]
    rw [hsB, hsA, hsA', hsB']
    exact creditF_swap st.losses B A (st.score A) (st.score B) r
  · dsimp only [applyResult]
    cases r
    · rfl
    · funext u
      simp only [if_true, bump]
      split_ifs <;> ring
  · dsimp only [applyResult]
    rw [hsB, hsA, hsA', hsB']
    exact h2hF_swap st.head_to_head_diffs A B (st.score A) (st.score B) r
  · dsimp only [applyResult]
    cases r
    · rfl
    · funext q
      simp only [if_true, bump2]
      split_ifs <;> ring
  · dsimp only [applyResult]
    rw [hsB, hsA, hsA', hsB']
    exact creditF_swap st.stage_wins A B (st.score A) (st.score B) r
  · dsimp only [applyResult]
    rw [hsB, hsA, hsA', hsB']
    exact creditF_swap st.stage_losses B A (st.score A) (st.score B) r
  · dsimp only [applyResult]
    cases r
    · rfl
    · funext u
      simp only [if_true, bump]
      split_ifs <;> ring
  · dsimp only [applyResult]
    cases r
    · rfl
    · funext q
      simp only [if_true, bump2]
      split_ifs <;> ring
  · dsimp only [applyResult]
    rw [hsB, hsA, hsA', hsB']
    exact creditF_swap st.stage_title_wins A B (st.score A) (st.score B) (!r && ti)
  · dsimp only [applyResult]
    rw [hsB, hsA, hsA', hsB']
    exact creditF_swap st.stage_title_losses B A (st.score A) (st.score B) (!r && ti)
  · dsimp only [applyResult]
    rw [hsB, hsA, hsA', hsB']
    exact creditF_swap st.playoff_wins A B (st.score A) (st.score B)
      (!r && !ti && p)
  · dsimp only [applyResult]
    rw [hsB, hsA, hsA', hsB']
    exact creditF_swap st.playoff_losses B A (st.score A) (st.score B)
      (!r && !ti && p)
  · dsimp only [applyResult]
    exact bump_comm st.score A 1 B 1
  · dsimp only [applyResult]
    funext mm
    by_cases hmm : some mm = st.match_id
    · simp only [if_pos hmm]
      exact congrArg some (bump_comm st.score A 1 B 1)
    · simp only [if_neg hmm]

/-- A game that belongs to one fixed non-drawn match: fixed stage, match id
and format, the two fixed teams in either order, and no drawn map score. -/
def MatchGame (A B : Team) (s : String) (m : ℤ) (f : String) (g : Game) : Prop :=
  g.stage = s ∧ g.match_id = m ∧ g.match_format = f ∧
  (g.teams = (A, B) ∨ g.teams = (B, A)) ∧ g.score.1 ≠ g.score.2

/-- The winner of a non-drawn game, as `_update_standings` resolves it. -/
def gameWinner (g : Game) : Team :=
  if g.score.2 < g.score.1 then g.teams.1 else g.teams.2

/-- The loser of a non-drawn game. -/
def gameLoser (g : Game) : Team :=
  if g.score.2 < g.score.1 then g.teams.2 else g.teams.1

theorem appendHist_comm (h : Option String → Team → List ℤ)
    (stg : Option String) (t1 t2 : Team) (m : ℤ) (hne : t1 ≠ t2) :
    appendHist (appendHist h stg t1 m) stg t2 m =
    appendHist (appendHist h stg t2 m) stg t1 m := by
  funext os u
  unfold appendHist
  by_cases h1 : os = stg ∧ u = t1
  · by_cases h2 : os = stg ∧ u = t2
    · exact absurd (h1.2.symm.trans h2.2) hne
    · simp only [if_pos h1, if_neg h2]
  · by_cases h2 : os = stg ∧ u = t2
    · simp only [if_pos h2, if_neg h1]
    · simp only [if_neg h1, if_neg h2]

theorem updateMatchIds_comm_teams (st : PredictorState) (m : ℤ) (A B : Team)
    (hAB : A ≠ B) :
    updateMatchIds st m (A, B) = updateMatchIds st m (B, A) := by
  unfold updateMatchIds
  split_ifs with h
  · rfl
  · rw [appendHist_comm st.match_history st.stage A B m hAB]

theorem updateMatchIds_of_seen (st : PredictorState) (mid : ℤ)
    (tms : Team × Team) (h : st.match_id = some mid) :
    updateMatchIds st mid tms = st := by
  unfold updateMatchIds
  rw [if_pos h]

theorem updateMatchIds_match_id (st : PredictorState) (mid : ℤ)
    (tms : Team × Team) : (updateMatchIds st mid tms).match_id = some mid := by
  unfold updateMatchIds
  split_ifs with h
  · exact h
  · rfl

/-- Normal form of `_update_standings` on a game of the fixed match: the
stage transition is a no-op, the match-identity update is orientation
independent, and the rest is `applyResult` at the game's winner/loser. -/
theorem updateStandings_normal (A B : Team) (s : String) (m : ℤ) (f : String)
    (st : PredictorState) (g : Game) (hAB : A ≠ B) (hstage : st.stage = some s)
    (hg : MatchGame A B s m f g) :
    updateStandings st g =
      applyResult (updateMatchIds st m (A, B)) (gameWinner g) (gameLoser g)
        (decide (f = "regular")) (strIn "Title" s) (decide (f = "playoff")) := by
  obtain ⟨hs, hm, hf, hteams, hne⟩ := hg
  unfold updateStandings gameWinner gameLoser
  rw [hs, hm, hf, updateStage_of_eq st s hstage, if_neg hne]
  by_cases hw : g.score.2 < g.score.1
  · rw [if_pos hw, if_pos hw, if_pos hw]
    rcases hteams with h | h
    · rw [h]
    · rw [h, updateMatchIds_comm_teams st m B A hAB.symm]
  · rw [if_neg hw, if_neg hw, if_neg hw]
    rcases hteams with h | h
    · rw [h]
    · rw [h, updateMatchIds_comm_teams st m B A hAB.symm]

theorem updateStandings_stage_of (A B : Team) (s : String) (m : ℤ) (f : String)
    (st : PredictorState) (g : Game) (hAB : A ≠ B) (hstage : st.stage = some s)
    (hg : MatchGame A B s m f g) :
    (updateStandings st g).stage = some s := by
  rw [updateStandings_normal A B s m f st g hAB hstage hg]
  show (updateMatchIds st m (A, B)).stage = some s
  rw [(updateMatchIds_frame st m (A, B)).2.2.2.2.2.1, hstage]

theorem gameWL_cases (A B : Team) (s : String) (m : ℤ) (f : String) (g : Game)
    (hg : MatchGame A B s m f g) :
    (gameWinner g = A ∧ gameLoser g = B) ∨
    (gameWinner g = B ∧ gameLoser g = A) := by
  obtain ⟨-, -, -, hteams, -⟩ := hg
  unfold gameWinner gameLoser
  by_cases hw : g.score.2 < g.score.1 <;>
    rcases hteams with h | h <;> rw [h] <;> simp [hw]

/-- Two consecutive games of the same match commute through
`_update_standings`. -/
theorem updateStandings_swap (A B : Team) (s : String) (m : ℤ) (f : String)
    (st : PredictorState) (g1 g2 : Game) (hAB : A ≠ B)
    (hstage : st.stage = some s) (h1 : MatchGame A B s m f g1)
    (h2 : MatchGame A B s m f g2) :
    updateStandings (updateStandings st g1) g2 =
    updateStandings (updateStandings st g2) g1 := by
  rw [updateStandings_normal A B s m f st g1 hAB hstage h1,
      updateStandings_normal A B s m f st g2 hAB hstage h2]
  have hstg1 : (applyResult (updateMatchIds st m (A, B)) (gameWinner g1)
      (gameLoser g1) (decide (f = "regular")) (strIn "Title" s)
      (decide (f = "playoff"))).stage = some s := by
    show (updateMatchIds st m (A, B)).stage = some s
    rw [(updateMatchIds_frame st m (A, B)).2.2.2.2.2.1, hstage]
  have hstg2 : (applyResult (updateMatchIds st m (A, B)) (gameWinner g2)
      (gameLoser g2) (decide (f = "regular")) (strIn "Title" s)
      (decide (f = "playoff"))).stage = some s := by
    show (updateMatchIds st m (A, B)).stage = some s
    rw [(updateMatchIds_frame st m (A, B)).2.2.2.2.2.1, hstage]
  rw [updateStandings_normal A B s m f _ g2 hAB hstg1 h2,
      updateStandings_normal A B s m f _ g1 hAB hstg2 h1]
  have hmid1 : (applyResult (updateMatchIds st m (A, B)) (gameWinner g1)
      (gameLoser g1) (decide (f = "regular")) (strIn "Title" s)
      (decide (f = "playoff"))).match_id = some m :=
    updateMatchIds_match_id st m (A, B)
  have hmid2 : (applyResult (updateMatchIds st m (A, B)) (gameWinner g2)
      (gameLoser g2) (decide (f = "regular")) (strIn "Title" s)
      (decide (f = "playoff"))).match_id = some m :=
    updateMatchIds_match_id st m (A, B)
  rw [updateMatchIds_of_seen _ _ _ hmid1, updateMatchIds_of_seen _ _ _ hmid2]
  rcases gameWL_cases A B s m f g1 h1 with ⟨hw1, hl1⟩ | ⟨hw1, hl1⟩ <;>
    rcases gameWL_cases A B s m f g2 h2 with ⟨hw2, hl2⟩ | ⟨hw2, hl2⟩ <;>
    rw [hw1, hl1, hw2, hl2]
  · exact applyResult_comm (updateMatchIds st m (A, B)) A B hAB _ _ _
  · exact (applyResult_comm (updateMatchIds st m (A, B)) A B hAB _ _ _).symm

/-- Feeding any two orders of the same multiset of the match's games through
`_update_standings` produces identical states. -/
theorem processGames_perm (A B : Team) (s : String) (m : ℤ) (f : String)
    (hAB : A ≠ B) :
    ∀ {l₁ l₂ : List Game}, l₁.Perm l₂ →
      ∀ st : PredictorState, st.stage = some s →
        (∀ g ∈ l₁, MatchGame A B s m f g) →
        processGames st l₁ = processGames st l₂ := by
  intro l₁ l₂ hperm
  induction hperm with
  | nil =>
    intro st _ _
    rfl
  | cons x hperm ih =>
    intro st hst hmg
    have hx := hmg x (List.mem_cons_self x _)
    show processGames (updateStandings st x) _ =
      processGames (updateStandings st x) _
    exact ih (updateStandings st x)
      (updateStandings_stage_of A B s m f st x hAB hst hx)
      fun g hgm => hmg g (List.mem_cons_of_mem _ hgm)
  | swap x y l =>
    intro st hst hmg
    have hy := hmg y (List.mem_cons_self y _)
    have hx := hmg x (List.mem_cons_of_mem _ (List.mem_cons_self x _))
    show processGames (updateStandings (updateStandings st y) x) l =
      processGames (updateStandings (updateStandings st x) y) l
    rw [updateStandings_swap A B s m f st y x hAB hst hy hx]
  | trans h12 h23 ih12 ih23 =>
    intro st hst hmg
    rw [ih12 st hst hmg]
    exact ih23 st hst fun g hgm => hmg g (h12.mem_iff.mpr hgm)

/-- C2: for a single match between two fixed teams (fixed stage, match id
and format, no drawn games), any two orders of the same multiset of game
results fed one at a time through `_update_standings` yield identical final
win/loss counters (season, stage, title and playoff). -/
theorem claim2_order_invariance (A B : Team) (s : String) (m : ℤ) (f : String)
    (st : PredictorState) (l₁ l₂ : List Game) (hAB : A ≠ B)
    (hstage : st.stage = some s) (hperm : l₁.Perm l₂)
    (hg : ∀ g ∈ l₁, MatchGame A B s m f g) :
    (processGames st l₁).wins = (processGames st l₂).wins ∧
    (processGames st l₁).losses = (processGames st l₂).losses ∧
    (processGames st l₁).stage_wins = (processGames st l₂).stage_wins ∧
    (processGames st l₁).stage_losses = (processGames st l₂).stage_losses ∧
    (processGames st l₁).stage_title_wins = (processGames st l₂).stage_title_wins ∧
    (processGames st l₁).stage_title_losses =
      (processGames st l₂).stage_title_losses ∧
    (processGames st l₁).playoff_wins = (processGames st l₂).playoff_wins ∧
    (processGames st l₁).playoff_losses = (processGames st l₂).playoff_losses := by
  rw [processGames_perm A B s m f hAB hperm st hstage hg]
  exact ⟨rfl, rfl, rfl, rfl, rfl, rfl, rfl, rfl⟩

/-- A state with an open stage for the C2 witness. -/
def c2State : PredictorState := { initState 12 with stage := some "Stage 1" }

/-- First game of the witness match: team "A" wins a map 3-2. -/
def c2GameA1 : Game :=
  { teams := ("A", "B"), rosters := ([], []), full_rosters := ([], []),
    score := (3, 2), stage := "Stage 1", match_id := 41,
    match_format := "regular", drawable := false }

/-- Second game: team "B" wins a map 1-3. -/
def c2GameB : Game :=
  { teams := ("A", "B"), rosters := ([], []), full_rosters := ([], []),
    score := (1, 3), stage := "Stage 1", match_id := 41,
    match_format := "regular", drawable := false }

/-- Third game, listed with the teams in the other order: "A" wins 0-2. -/
def c2GameA2 : Game :=
  { teams := ("B", "A"), rosters := ([], []), full_rosters := ([], []),
    score := (0, 2), stage := "Stage 1", match_id := 41,
    match_format := "regular", drawable := false }

/-- Witness instantiating `claim2_order_invariance` at a concrete input:
the same three games in two different orders (in particular the eventual
winner's loss recorded in different positions). -/
theorem claim2_witness :
    (processGames c2State [c2GameA1, c2GameB, c2GameA2]).wins =
      (processGames c2State [c2GameB, c2GameA2, c2GameA1]).wins ∧
    (processGames c2State [c2GameA1, c2GameB, c2GameA2]).losses =
      (processGames c2State [c2GameB, c2GameA2, c2GameA1]).losses ∧
    (processGames c2State [c2GameA1, c2GameB, c2GameA2]).stage_wins =
      (processGames c2State [c2GameB, c2GameA2, c2GameA1]).stage_wins ∧
    (processGames c2State [c2GameA1, c2GameB, c2GameA2]).stage_losses =
      (processGames c2State [c2GameB, c2GameA2, c2GameA1]).stage_losses ∧
    (processGames c2State [c2GameA1, c2GameB, c2GameA2]).stage_title_wins =
      (processGames c2State [c2GameB, c2GameA2, c2GameA1]).stage_title_wins ∧
    (processGames c2State [c2GameA1, c2GameB, c2GameA2]).stage_title_losses =
      (processGames c2State [c2GameB, c2GameA2, c2GameA1]).stage_title_losses ∧
    (processGames c2State [c2GameA1, c2GameB, c2GameA2]).playoff_wins =
      (processGames c2State [c2GameB, c2GameA2, c2GameA1]).playoff_wins ∧
    (processGames c2State [c2GameA1, c2GameB, c2GameA2]).playoff_losses =
      (processGames c2State [c2GameB, c2GameA2, c2GameA1]).playoff_losses :=
  claim2_order_invariance "A" "B" "Stage 1" 41 "regular" c2State
    [c2GameA1, c2GameB, c2GameA2] [c2GameB, c2GameA2, c2GameA1]
    (by decide) rfl (by decide)
    (by
      intro g hgm
      simp only [List.mem_cons, List.not_mem_nil, or_false] at hgm
      rcases hgm with rfl | rfl | rfl
      · exact ⟨rfl, rfl, rfl, Or.inl rfl, by decide⟩
      · exact ⟨rfl, rfl, rfl, Or.inl rfl, by decide⟩
      · exact ⟨rfl, rfl, rfl, Or.inr rfl, by decide⟩)

/-- An undrawable decisive game for the C8 witness. -/
def c8Game : Game :=
  { teams := ("A", "B"), rosters := ([], []), full_rosters := ([], []),
    score := (3, 1), stage := "Stage 1", match_id := 31,
    match_format := "best-of-5", drawable := false }

/-- Witness instantiating `claim8_update_monotone` at a concrete input. -/
theorem claim8_witness :
    (tsState.ratings "A").mu <
      ((trainTSUndrawable tsState c8Game).ratings "A").mu ∧
    ((trainTSUndrawable tsState c8Game).ratings "B").mu <
      (tsState.ratings "B").mu :=
  claim8_update_monotone tsState c8Game (by norm_num [tsState]) (by decide)
    (by norm_num [c8Game]) rfl

/-! ## Claim C6: standings counting facts -/

/-- If at least `k` list elements satisfy `p`, one of them sits at an index
at most `length - k`. -/
theorem exists_low_index {α : Type} (p : α → Bool) :
    ∀ (L : List α) (k : ℕ), 1 ≤ k → k ≤ L.countP p →
      ∃ i : ℕ, ∃ h : i < L.length, i + k ≤ L.length ∧ p (L.get ⟨i, h⟩) := by
  intro L
  induction L with
  | nil =>
    intro k hk1 hcnt
    simp [List.countP_nil] at hcnt
    omega
  | cons a t ih =>
    intro k hk1 hcnt
    by_cases hpa : p a
    · refine ⟨0, by simp, ?_, hpa⟩
      have := List.countP_le_length p (l := a :: t)
      simpa using le_trans hcnt this
    · rw [List.countP_cons, if_neg (by simpa using hpa)] at hcnt
      obtain ⟨i, h, hik, hpi⟩ := ih k hk1 (by omega)
      refine ⟨i + 1, by simpa using Nat.succ_lt_succ h, ?_, hpi⟩
      simp only [List.length_cons]
      omega

theorem nthLargestVal_get (L : List (ℤ × ℤ)) (k : ℕ) (hk1 : 1 ≤ k)
    (hkn : k ≤ L.length) :
    ∃ h : L.length - k < (L.insertionSort pairLe).length,
      nthLargestVal L k = (L.insertionSort pairLe).get ⟨L.length - k, h⟩ := by
  have hlen : (L.insertionSort pairLe).length = L.length :=
    (L.perm_insertionSort pairLe).length_eq
  have h : L.length - k < (L.insertionSort pairLe).length := by omega
  exact ⟨h, by rw [nthLargestVal, List.getD_eq_getElem _ _ (by omega)]; rfl⟩

/-- At least `k` elements are `≥` the `k`-th largest. -/
theorem count_ge_nthLargestVal (L : List (ℤ × ℤ)) (k : ℕ) (hk1 : 1 ≤ k)
    (hkn : k ≤ L.length) :
    k ≤ L.countP fun v => decide (pairLe (nthLargestVal L k) v) := by
  obtain ⟨hidx, hval⟩ := nthLargestVal_get L k hk1 hkn
  set S := L.insertionSort pairLe with hS
  have hsorted : S.Sorted pairLe := L.sorted_insertionSort pairLe
  have hlen : S.length = L.length := (L.perm_insertionSort pairLe).length_eq
  have hdlen : (S.drop (L.length - k)).length = S.length - (L.length - k) :=
    List.length_drop _ _
  have hdrop : S.drop (L.length - k) =
      S.get ⟨L.length - k, hidx⟩ :: S.drop (L.length - k + 1) := by
    rw [List.drop_eq_getElem_cons hidx]
    rfl
  have hdsorted : (S.get ⟨L.length - k, hidx⟩ ::
      S.drop (L.length - k + 1)).Sorted pairLe := by
    rw [← hdrop]
    exact hsorted.drop
  have hcnt : (S.drop (L.length - k)).countP
      (fun v => decide (pairLe (nthLargestVal L k) v)) =
      (S.drop (L.length - k)).length := by
    rw [List.countP_eq_length]
    intro v hv
    rw [hdrop] at hv
    rw [hval]
    rcases List.mem_cons.mp hv with h | h
    · exact decide_eq_true (h ▸ le_refl _)
    · exact decide_eq_true (List.rel_of_sorted_cons hdsorted v h)
  have hsplit : S.countP (fun v => decide (pairLe (nthLargestVal L k) v)) =
      (S.take (L.length - k)).countP (fun v => decide (pairLe (nthLargestVal L k) v)) +
      (S.drop (L.length - k)).countP (fun v => decide (pairLe (nthLargestVal L k) v)) := by
    rw [← List.countP_append, List.take_append_drop]
  have hperm : S.countP (fun v => decide (pairLe (nthLargestVal L k) v)) =
      L.countP (fun v => decide (pairLe (nthLargestVal L k) v)) :=
    (L.perm_insertionSort pairLe).countP_eq _
  omega

/-- If at least `k` elements are strictly above `x`, so is the `k`-th
largest. -/
theorem lt_nthLargestVal_of_count (L : List (ℤ × ℤ)) (k : ℕ) (x : ℤ × ℤ)
    (hk1 : 1 ≤ k) (hkn : k ≤ L.length)
    (hcnt : k ≤ L.countP fun v => decide (pairLt x v)) :
    pairLt x (nthLargestVal L k) := by
  obtain ⟨hidx, hval⟩ := nthLargestVal_get L k hk1 hkn
  set S := L.insertionSort pairLe with hS
  have hsorted : S.Sorted pairLe := L.sorted_insertionSort pairLe
  have hlen : S.length = L.length := (L.perm_insertionSort pairLe).length_eq
  have hcntS : k ≤ S.countP fun v => decide (pairLt x v) := by
    rw [(L.perm_insertionSort pairLe).countP_eq]
    exact hcnt
  obtain ⟨i, hi, hik, hpi⟩ := exists_low_index _ S k hk1 hcntS
  have hlei : pairLe (S.get ⟨i, hi⟩) (S.get ⟨L.length - k, hidx⟩) :=
    hsorted.rel_get_of_le (by simp [Fin.le_def]; omega)
  have hxi : pairLt x (S.get ⟨i, hi⟩) := of_decide_eq_true hpi
  rw [hval]
  exact pairLt_of_lt_of_le hxi hlei

theorem adjStanding_pair_apply (f : Team → ℤ × ℤ) (A B : Team) (dw dm : ℤ)
    (t : Team) :
    (adjStanding (adjStanding f A dw dm) B dw dm) t =
      ((f t).1 + dw * ((if t = A then 1 else 0) + (if t = B then 1 else 0)),
       (f t).2 + dm * ((if t = A then 1 else 0) + (if t = B then 1 else 0))) := by
  unfold adjStanding
  split_ifs <;> simp only [Prod.ext_iff] <;> constructor <;> ring

theorem adjStanding_fold (dw dm : ℤ) (ms : List Game) (f : Team → ℤ × ℤ)
    (t : Team) :
    (ms.foldl (fun acc m =>
        adjStanding (adjStanding acc m.teams.1 dw dm) m.teams.2 dw dm) f) t =
      ((f t).1 + dw * creditCount ms t, (f t).2 + dm * creditCount ms t) := by
  induction ms generalizing f with
  | nil => simp [creditCount]
  | cons m rest ih =>
    rw [List.foldl_cons, ih]
    rw [adjStanding_pair_apply]
    have hcc : creditCount (m :: rest) t =
        ((if t = m.teams.1 then 1 else 0) + (if t = m.teams.2 then 1 else 0)) +
          creditCount rest t := by
      simp [creditCount]
    rw [hcc]
    simp only [Prod.mk.injEq]
    constructor <;> ring

theorem creditCount_nonneg (ms : List Game) (t : Team) : 0 ≤ creditCount ms t := by
  apply List.sum_nonneg
  intro x hx
  obtain ⟨m, _, rfl⟩ := List.mem_map.mp hx
  split_ifs <;> norm_num

/-- The closed form of the `min_wins` table: the claim's "worst-possible
final standing" (same wins, 4 maps docked per remaining match). -/
theorem stageMinWins_eq (st : PredictorState) (ms : List Game) (t : Team) :
    stageMinWins st ms t =
      (st.stage_wins t, st.stage_map_diffs t - 4 * creditCount ms t) := by
  rw [stageMinWins, adjStanding_fold]
  simp only [Prod.mk.injEq]
  constructor <;> ring

/-- The closed form of the `max_wins` table: the claim's "best-possible
final standing" (one win and +4 maps credited per remaining match). -/
theorem stageMaxWins_eq (st : PredictorState) (ms : List Game) (t : Team) :
    stageMaxWins st ms t =
      (st.stage_wins t + creditCount ms t,
       st.stage_map_diffs t + 4 * creditCount ms t) := by
  rw [stageMaxWins, adjStanding_fold]
  simp only [Prod.mk.injEq]
  constructor <;> ring

theorem stageMin_le_max (st : PredictorState) (ms : List Game) (t : Team) :
    pairLe (stageMinWins st ms t) (stageMaxWins st ms t) := by
  rw [stageMinWins_eq, stageMaxWins_eq]
  have hc := creditCount_nonneg ms t
  show toLex _ ≤ toLex _
  rw [Prod.Lex.le_iff]
  rcases hc.lt_or_eq with h | h
  · left
    simpa using h
  · right
    constructor
    · simp [← h]
    · simp [← h]

theorem count_ge_nthLargest (TEAMS : List Team) (f : Team → ℤ × ℤ) (k : ℕ)
    (hk1 : 1 ≤ k) (hkn : k ≤ TEAMS.length) :
    k ≤ TEAMS.countP fun u => decide (pairLe (nthLargest TEAMS f k) (f u)) := by
  have h := count_ge_nthLargestVal (TEAMS.map f) k hk1
    (by rw [List.length_map]; exact hkn)
  rw [List.countP_map] at h
  exact h

theorem lt_nthLargest_of_count (TEAMS : List Team) (f : Team → ℤ × ℤ) (k : ℕ)
    (x : ℤ × ℤ) (hk1 : 1 ≤ k) (hkn : k ≤ TEAMS.length)
    (hcnt : k ≤ TEAMS.countP fun u => decide (pairLt x (f u))) :
    pairLt x (nthLargest TEAMS f k) := by
  apply lt_nthLargestVal_of_count _ k _ hk1 (by rw [List.length_map]; exact hkn)
  rw [List.countP_map]
  exact hcnt

/-- C6: in `predict_stage`'s post-processing, a team whose best-possible
standing (one win, +4 map diff credited per remaining match) is strictly
below the 8th-largest worst-possible standing gets both probabilities forced
to the boolean `False`; a team whose worst-possible standing is strictly
above the 9th-largest best-possible standing gets the title-berth
probability forced to `True` and, via the source's `elif` chain, the
top-seed probability forced to `False` if it has any stage-title loss, or to
`True` if the stage is finished; `stage_finished` holds exactly when the
stage-title losses over all teams sum to 3.  (The two guarding conditions
are mutually exclusive — proved here by counting — so the second clause
applies exactly as the claim states it, without assuming the first fails.) -/
theorem claim6_stage_post (TEAMS : List Team) (st : PredictorState)
    (upcoming : List Game) (prediction : Team → PredVal × PredVal) (t : Team)
    (h9 : 9 ≤ TEAMS.length) (ht : t ∈ TEAMS) :
    (pairLt (stageMaxWins st (remainingRegular st upcoming) t)
        (nthLargest TEAMS (stageMinWins st (remainingRegular st upcoming)) 8) →
      predictStagePost TEAMS st upcoming prediction t =
        (PredVal.flag false, PredVal.flag false)) ∧
    (pairLt (nthLargest TEAMS (stageMaxWins st (remainingRegular st upcoming)) 9)
        (stageMinWins st (remainingRegular st upcoming) t) →
      (predictStagePost TEAMS st upcoming prediction t).1 = PredVal.flag true ∧
      (0 < st.stage_title_losses t →
        (predictStagePost TEAMS st upcoming prediction t).2 = PredVal.flag false) ∧
      (¬0 < st.stage_title_losses t → stageFinished TEAMS st = true →
        (predictStagePost TEAMS st upcoming prediction t).2 = PredVal.flag true)) ∧
    (stageFinished TEAMS st = true ↔ (TEAMS.map st.stage_title_losses).sum = 3) ∧
    stageMaxWins st (remainingRegular st upcoming) t =
      (st.stage_wins t + creditCount (remainingRegular st upcoming) t,
       st.stage_map_diffs t + 4 * creditCount (remainingRegular st upcoming) t) ∧
    stageMinWins st (remainingRegular st upcoming) t =
      (st.stage_wins t,
       st.stage_map_diffs t - 4 * creditCount (remainingRegular st upcoming) t) := by
  set ms := remainingRegular st upcoming with hms
  refine ⟨?_, ?_, by simp [stageFinished], stageMaxWins_eq st ms t,
    stageMinWins_eq st ms t⟩
  · intro hco
    unfold predictStagePost
    rw [← hms, if_pos ht, if_pos hco]
  · intro h2
    set min8 := nthLargest TEAMS (stageMinWins st ms) 8 with hm8
    set max9 := nthLargest TEAMS (stageMaxWins st ms) 9 with hm9
    have hnot1 : ¬pairLt (stageMaxWins st ms t) min8 := by
      intro hcon
      have hc8 : 8 ≤ TEAMS.countP fun u =>
          decide (pairLe min8 (stageMinWins st ms u)) :=
        count_ge_nthLargest TEAMS (stageMinWins st ms) 8 (by norm_num) (by omega)
      have hmono : ∀ u ∈ TEAMS,
          (fun u => decide (pairLe min8 (stageMinWins st ms u))) u = true →
          (fun u => decide (pairLt max9 (stageMaxWins st ms u))) u = true := by
        intro u _ hd
        have h := of_decide_eq_true hd
        exact decide_eq_true (pairLt_of_lt_of_le h2
          (pairLe_trans (stageMin_le_max st ms t)
            (pairLe_trans (pairLe_of_lt hcon)
              (pairLe_trans h (stageMin_le_max st ms u)))))
      obtain ⟨s1, s2, hsp⟩ := List.append_of_mem ht
      have hQt : decide (pairLt max9 (stageMaxWins st ms t)) = true :=
        decide_eq_true (pairLt_of_lt_of_le h2 (stageMin_le_max st ms t))
      have hPt : decide (pairLe min8 (stageMinWins st ms t)) = false := by
        apply decide_eq_false
        intro h
        exact pairLt_irrefl _ (pairLt_of_lt_of_le hcon
          (pairLe_trans h (stageMin_le_max st ms t)))
      have hmono1 : List.countP (fun u => decide (pairLe min8 (stageMinWins st ms u))) s1 ≤
          List.countP (fun u => decide (pairLt max9 (stageMaxWins st ms u))) s1 :=
        List.countP_mono_left fun x hx =>
          hmono x (by rw [hsp]; exact List.mem_append_left _ hx)
      have hmono2 : List.countP (fun u => decide (pairLe min8 (stageMinWins st ms u))) s2 ≤
          List.countP (fun u => decide (pairLt max9 (stageMaxWins st ms u))) s2 :=
        List.countP_mono_left fun x hx =>
          hmono x (by rw [hsp]
                      exact List.mem_append_right _ (List.mem_cons_of_mem _ hx))
      have hsum9 : 9 ≤ TEAMS.countP fun u =>
          decide (pairLt max9 (stageMaxWins st ms u)) := by
        rw [hsp, List.countP_append, List.countP_cons] at hc8
        rw [hsp, List.countP_append, List.countP_cons]
        simp only [hPt] at hc8
        simp only [hQt]
        norm_num at hc8 ⊢
        omega
      have hfin := lt_nthLargest_of_count TEAMS (stageMaxWins st ms) 9 max9
        (by norm_num) (by omega) hsum9
      rw [← hm9] at hfin
      exact pairLt_irrefl _ hfin
    unfold predictStagePost
    rw [← hms, if_pos ht, if_neg hnot1, if_pos h2]
    refine ⟨rfl, ?_, ?_⟩
    · intro hl
      show (if 0 < st.stage_title_losses t then PredVal.flag false
        else if stageFinished TEAMS st then PredVal.flag true
        else (prediction t).2) = PredVal.flag false
      rw [if_pos hl]
    · intro hl hf
      show (if 0 < st.stage_title_losses t then PredVal.flag false
        else if stageFinished TEAMS st then PredVal.flag true
        else (prediction t).2) = PredVal.flag true
      rw [if_neg hl, if_pos hf]

/-- Witness instantiating `claim6_stage_post` at a concrete input: nine
teams, no remaining matches, all counters zero. -/
theorem claim6_witness :
    (pairLt (stageMaxWins (initState 12) (remainingRegular (initState 12) []) "T1")
        (nthLargest ["T1", "T2", "T3", "T4", "T5", "T6", "T7", "T8", "T9"]
          (stageMinWins (initState 12) (remainingRegular (initState 12) [])) 8) →
      predictStagePost ["T1", "T2", "T3", "T4", "T5", "T6", "T7", "T8", "T9"]
        (initState 12) [] (fun _ => (PredVal.prob 0, PredVal.prob 0)) "T1" =
        (PredVal.flag false, PredVal.flag false)) ∧
    (pairLt (nthLargest ["T1", "T2", "T3", "T4", "T5", "T6", "T7", "T8", "T9"]
        (stageMaxWins (initState 12) (remainingRegular (initState 12) [])) 9)
        (stageMinWins (initState 12) (remainingRegular (initState 12) []) "T1") →
      (predictStagePost ["T1", "T2", "T3", "T4", "T5", "T6", "T7", "T8", "T9"]
        (initState 12) [] (fun _ => (PredVal.prob 0, PredVal.prob 0)) "T1").1 =
        PredVal.flag true ∧
      (0 < (initState 12).stage_title_losses "T1" →
        (predictStagePost ["T1", "T2", "T3", "T4", "T5", "T6", "T7", "T8", "T9"]
          (initState 12) [] (fun _ => (PredVal.prob 0, PredVal.prob 0)) "T1").2 =
          PredVal.flag false) ∧
      (¬0 < (initState 12).stage_title_losses "T1" →
        stageFinished ["T1", "T2", "T3", "T4", "T5", "T6", "T7", "T8", "T9"]
          (initState 12) = true →
        (predictStagePost ["T1", "T2", "T3", "T4", "T5", "T6", "T7", "T8", "T9"]
          (initState 12) [] (fun _ => (PredVal.prob 0, PredVal.prob 0)) "T1").2 =
          PredVal.flag true)) ∧
    (stageFinished ["T1", "T2", "T3", "T4", "T5", "T6", "T7", "T8", "T9"]
      (initState 12) = true ↔
      (["T1", "T2", "T3", "T4", "T5", "T6", "T7", "T8", "T9"].map
        (initState 12).stage_title_losses).sum = 3) ∧
    stageMaxWins (initState 12) (remainingRegular (initState 12) []) "T1" =
      ((initState 12).stage_wins "T1" +
        creditCount (remainingRegular (initState 12) []) "T1",
       (initState 12).stage_map_diffs "T1" +
        4 * creditCount (remainingRegular (initState 12) []) "T1") ∧
    stageMinWins (initState 12) (remainingRegular (initState 12) []) "T1" =
      ((initState 12).stage_wins "T1",
       (initState 12).stage_map_diffs "T1" -
        4 * creditCount (remainingRegular (initState 12) []) "T1") :=
  claim6_stage_post ["T1", "T2", "T3", "T4", "T5", "T6", "T7", "T8", "T9"]
    (initState 12) [] (fun _ => (PredVal.prob 0, PredVal.prob 0)) "T1"
    (by norm_num) (by norm_num)

/-! ## Claim C5 -/

/-- C5: `predict_match_score` is claimed to raise exactly on formats outside
`{preseason, regular, best-of-5, best-of-7}`.  The claim is right about the
intended behaviour, but the source tests `match.match_format in
('best-of-5')` — a parenthesised *string*, not a tuple — so Python performs
a substring test and, e.g., the format `"of"` is silently dispatched to the
best-of-5 expansion (5 undrawable games, clinch at 3) instead of raising
`NotImplementedError`.  This theorem evaluates the embedded dispatch at that
failing input. -/
theorem claim5_substring_dispatch :
    matchFormatParams "of" = some ([false, false, false, false, false], 3) ∧
    "of" ∉ (["preseason", "regular", "best-of-5", "best-of-7"] : List String) := by
  decide

/-! ## Claim C4 -/

/-- C4 (amended): entering a genuinely new stage (different name, not an
extension of the current stage name) resets the six stage counters kept by
`_update_stage` — stage wins/losses, stage map diffs, stage head-to-head map
diffs, and stage-title wins/losses — and installs the new stage as both
current and base stage, while the playoff win/loss counters (which the
claim, following the spec, also listed as reset) are left unchanged, along
with every other field. -/
theorem claim4_new_stage_reset (st : PredictorState) (s : String)
    (hne : st.stage ≠ some s)
    (hext : ∀ s0, st.stage = some s0 → pyStartsWith s s0 = false) :
    updateStage st s =
      { st with base_stage := some s, stage := some s,
                stage_wins := fun _ => 0,
                stage_losses := fun _ => 0,
                stage_map_diffs := fun _ => 0,
                stage_head_to_head_map_diffs := fun _ => 0,
                stage_title_wins := fun _ => 0,
                stage_title_losses := fun _ => 0 } := by
  unfold updateStage
  rw [if_neg hne, if_neg]
  cases h : st.stage with
  | none => simp
  | some s0 => simp [hext s0 h]

/-- A concrete state refuting C4 as stated: current stage "Stage 1" and one
recorded playoff win. -/
def c4State : PredictorState :=
  { initState 12 with stage := some "Stage 1",
                      playoff_wins := fun t => if t = "A" then 1 else 0 }

/-- C4 counterexample: a transition to the genuinely new stage "Stage 2"
(the hypotheses of the claim hold) does *not* reset the playoff win counter
to zero, contradicting the claim's "all per-stage counters — ..., and
playoff wins/losses — are reset to zero". -/
theorem claim4_counterexample :
    c4State.stage ≠ some "Stage 2" ∧
    pyStartsWith "Stage 2" "Stage 1" = false ∧
    (updateStage c4State "Stage 2").playoff_wins "A" ≠ 0 := by
  decide

/-- Witness instantiating `claim4_new_stage_reset` at a concrete input. -/
theorem claim4_witness :
    updateStage c4State "Stage 2" =
      { c4State with base_stage := some "Stage 2", stage := some "Stage 2",
                     stage_wins := fun _ => 0,
                     stage_losses := fun _ => 0,
                     stage_map_diffs := fun _ => 0,
                     stage_head_to_head_map_diffs := fun _ => 0,
                     stage_title_wins := fun _ => 0,
                     stage_title_losses := fun _ => 0 } :=
  claim4_new_stage_reset c4State "Stage 2" (by decide)
    (fun s0 h => by
      have : s0 = "Stage 1" := by
        have : some s0 = some "Stage 1" := by rw [← h]; rfl
        exact Option.some.inj this
      subst this
      decide)

/-! ## Claim C7 -/

/-- A concrete state refuting C7 as stated: current stage "Stage 1" with a
non-zero stage map diff for team "A". -/
def c7State : PredictorState :=
  { initState 12 with stage := some "Stage 1",
                      stage_map_diffs := fun t => if t = "A" then 5 else 0 }

/-- A playoff-format game in a genuinely new stage. -/
def c7Game : Game :=
  { teams := ("A", "B"), rosters := ([], []), full_rosters := ([], []),
    score := (3, 2), stage := "Stage 2", match_id := 7,
    match_format := "playoff", drawable := false }

/-- C7 counterexample: a completed game whose match format is not
`"regular"` can still change a stage map-diff counter, namely when the
game's stage is genuinely new and `_update_stage` clears the stage
counters before the game is applied. -/
theorem claim7_counterexample :
    c7Game.match_format ≠ "regular" ∧
    (updateStandings c7State c7Game).stage_map_diffs "A" ≠
      c7State.stage_map_diffs "A" := by
  decide

/-- C7 (amended): for a completed game whose format is not `"regular"` *and
which does not enter a genuinely new stage* (its stage is the tracker's
current stage or a title extension of it), `_update_standings` leaves the
season map-diff, stage map-diff, season head-to-head map-diff and stage
head-to-head map-diff counters of every team and team pair unchanged. -/
theorem claim7_non_regular_map_frame (st : PredictorState) (g : Game)
    (hfmt : g.match_format ≠ "regular")
    (hstage : st.stage = some g.stage ∨
      ∃ s0, st.stage = some s0 ∧ pyStartsWith g.stage s0 = true) :
    (updateStandings st g).map_diffs = st.map_diffs ∧
    (updateStandings st g).stage_map_diffs = st.stage_map_diffs ∧
    (updateStandings st g).head_to_head_map_diffs = st.head_to_head_map_diffs ∧
    (updateStandings st g).stage_head_to_head_map_diffs =
      st.stage_head_to_head_map_diffs := by
  have hst1 : (updateStage st g.stage).map_diffs = st.map_diffs ∧
      (updateStage st g.stage).stage_map_diffs = st.stage_map_diffs ∧
      (updateStage st g.stage).head_to_head_map_diffs = st.head_to_head_map_diffs ∧
      (updateStage st g.stage).stage_head_to_head_map_diffs =
        st.stage_head_to_head_map_diffs := by
    rcases hstage with h | ⟨s0, h0, hpre⟩
    · rw [updateStage_of_eq st g.stage h]
      exact ⟨rfl, rfl, rfl, rfl⟩
    · by_cases he : st.stage = some g.stage
      · rw [updateStage_of_eq st g.stage he]
        exact ⟨rfl, rfl, rfl, rfl⟩
      · rw [updateStage_title st g.stage s0 h0 he hpre]
        exact ⟨rfl, rfl, rfl, rfl⟩
  obtain ⟨ha, hb, hc, hd⟩ := hst1
  obtain ⟨-, -, hmd, -, hh2hm, -, -, -, -, hsmd, hsh2hm, -⟩ :=
    updateMatchIds_frame (updateStage st g.stage) g.match_id g.teams
  have e1 := hmd.trans ha
  have e2 := hsmd.trans hb
  have e3 := hh2hm.trans hc
  have e4 := hsh2hm.trans hd
  have hreg : (decide (g.match_format = "regular")) = false := by
    simp [hfmt]
  unfold updateStandings
  split_ifs with hdraw hwin
  · exact ⟨e1, e2, e3, e4⟩
  · rw [hreg]
    exact ⟨e1, e2, e3, e4⟩
  · rw [hreg]
    exact ⟨e1, e2, e3, e4⟩

/-! ## Claim C9 -/

/-- C9: a drawn game (equal map scores) whose stage is the tracker's current
stage leaves every season/stage win-loss, map-diff, head-to-head, title and
playoff counter unchanged; if its match id is the current one the state is
untouched entirely, and otherwise the only change is registering the new
match id: the current match id switches, a zero tally is opened (also
recorded in `scores`), and the match id is appended to both teams' per-stage
match history. -/
theorem claim9_drawn_game_frame (st : PredictorState) (g : Game)
    (hdraw : g.score.1 = g.score.2) (hstage : st.stage = some g.stage) :
    ((updateStandings st g).wins = st.wins ∧
     (updateStandings st g).losses = st.losses ∧
     (updateStandings st g).map_diffs = st.map_diffs ∧
     (updateStandings st g).head_to_head_diffs = st.head_to_head_diffs ∧
     (updateStandings st g).head_to_head_map_diffs = st.head_to_head_map_diffs ∧
     (updateStandings st g).stage_wins = st.stage_wins ∧
     (updateStandings st g).stage_losses = st.stage_losses ∧
     (updateStandings st g).stage_map_diffs = st.stage_map_diffs ∧
     (updateStandings st g).stage_head_to_head_map_diffs =
       st.stage_head_to_head_map_diffs ∧
     (updateStandings st g).stage_title_wins = st.stage_title_wins ∧
     (updateStandings st g).stage_title_losses = st.stage_title_losses ∧
     (updateStandings st g).playoff_wins = st.playoff_wins ∧
     (updateStandings st g).playoff_losses = st.playoff_losses) ∧
    (st.match_id = some g.match_id → updateStandings st g = st) ∧
    (st.match_id ≠ some g.match_id →
      updateStandings st g =
        { st with match_id := some g.match_id,
                  score := fun _ => 0,
                  scores := fun m =>
                    if m = g.match_id then some (fun _ => 0) else st.scores m,
                  match_history :=
                    appendHist (appendHist st.match_history st.stage g.teams.1
                      g.match_id) st.stage g.teams.2 g.match_id }) := by
  have hstd : updateStandings st g = updateMatchIds st g.match_id g.teams := by
    unfold updateStandings
    rw [if_pos hdraw, updateStage_of_eq st g.stage hstage]
  by_cases hm : st.match_id = some g.match_id
  · have : updateMatchIds st g.match_id g.teams = st := by
      unfold updateMatchIds
      rw [if_pos hm]
    rw [hstd, this]
    exact ⟨⟨rfl, rfl, rfl, rfl, rfl, rfl, rfl, rfl, rfl, rfl, rfl, rfl, rfl⟩,
      fun _ => rfl, fun hne => absurd hm hne⟩
  · have : updateMatchIds st g.match_id g.teams =
        { st with match_id := some g.match_id,
                  score := fun _ => 0,
                  scores := fun m =>
                    if m = g.match_id then some (fun _ => 0) else st.scores m,
                  match_history :=
                    appendHist (appendHist st.match_history st.stage g.teams.1
                      g.match_id) st.stage g.teams.2 g.match_id } := by
      unfold updateMatchIds
      rw [if_neg hm]
    rw [hstd, this]
    exact ⟨⟨rfl, rfl, rfl, rfl, rfl, rfl, rfl, rfl, rfl, rfl, rfl, rfl, rfl⟩,
      fun he => absurd he hm, fun _ => rfl⟩

/-- A concrete state for the C9 witness: current stage "Stage 1", no match
open. -/
def c9State : PredictorState := { initState 12 with stage := some "Stage 1" }

/-- A drawn game in the current stage, with a fresh match id. -/
def c9Game : Game :=
  { teams := ("A", "B"), rosters := ([], []), full_rosters := ([], []),
    score := (2, 2), stage := "Stage 1", match_id := 11,
    match_format := "regular", drawable := true }

/-- Witness instantiating `claim9_drawn_game_frame` at a concrete input. -/
theorem claim9_witness :
    (updateStandings c9State c9Game).stage_wins = c9State.stage_wins ∧
    (updateStandings c9State c9Game).match_id = some 11 := by
  obtain ⟨hf, -, hreg⟩ := claim9_drawn_game_frame c9State c9Game rfl rfl
  refine ⟨hf.2.2.2.2.2.1, ?_⟩
  rw [hreg (by decide)]
  rfl

/-! ## Claim C10 -/

/-- C10: for a drawn game (equal map scores), `evaluate` returns the point
`0.0` and correctness flag `False` without consulting the predictor's
probability model (the result holds for *every* `predict` function), and
`train` therefore appends `(0.0, False)` to the evaluation history before
the state updates (stated for any `_train` implementation that does not
touch the evaluation history, as none of the subclasses' do). -/
theorem claim10_draw_evaluation
    (predict : Team × Team → Roster × Roster → Bool → ℚ × ℚ)
    (trainModel : PredictorState → Game → PredictorState)
    (st : PredictorState) (g : Game)
    (hdraw : g.score.1 = g.score.2)
    (hframe : ∀ s h, (trainModel s h).points = s.points ∧
      (trainModel s h).corrects = s.corrects) :
    evaluate predict g = (0, false) ∧
    (train predict trainModel st g).points = st.points ++ [(0 : ℝ)] ∧
    (train predict trainModel st g).corrects = st.corrects ++ [false] := by
  have heval : evaluate predict g = (0, false) := by
    unfold evaluate
    rw [if_pos hdraw]
  refine ⟨heval, ?_, ?_⟩
  · unfold train
    rw [(hframe _ _).1, (updateDraws_points _ _ _).1, (updateStandings_points _ _).1]
    show st.points ++ [(evaluate predict g).1] = st.points ++ [(0 : ℝ)]
    rw [heval]
  · unfold train
    rw [(hframe _ _).2, (updateDraws_points _ _ _).2, (updateStandings_points _ _).2]
    show st.corrects ++ [(evaluate predict g).2] = st.corrects ++ [false]
    rw [heval]

/-- A drawn game for the C10 witness. -/
def c10Game : Game :=
  { teams := ("A", "B"), rosters := ([], []), full_rosters := ([], []),
    score := (1, 1), stage := "Stage 1", match_id := 3,
    match_format := "regular", drawable := true }

/-- Witness instantiating `claim10_draw_evaluation` at a concrete input. -/
theorem claim10_witness :
    evaluate (fun _ _ _ => ((1 : ℚ) / 2, 0)) c10Game = (0, false) ∧
    (train (fun _ _ _ => ((1 : ℚ) / 2, 0)) (fun s _ => s) (initState 12)
      c10Game).points = (initState 12).points ++ [(0 : ℝ)] ∧
    (train (fun _ _ _ => ((1 : ℚ) / 2, 0)) (fun s _ => s) (initState 12)
      c10Game).corrects = (initState 12).corrects ++ [false] :=
  claim10_draw_evaluation _ _ _ _ rfl (fun _ _ => ⟨rfl, rfl⟩)

/-! ## Claim C1: distribution mass and non-negativity -/

theorem totalMass_append (l1 l2 : PScores) :
    totalMass (l1 ++ l2) = totalMass l1 + totalMass l2 := by
  simp [totalMass]

theorem totalMass_flatMap (l : PScores) (f : (ℕ × ℕ) × ℚ → PScores) :
    totalMass (l.flatMap f) = (l.map fun e => totalMass (f e)).sum := by
  induction l with
  | nil => rfl
  | cons e t ih =>
    rw [List.flatMap_cons, totalMass_append, ih, List.map_cons, List.sum_cons]

theorem list_sum_map_add {α : Type} (l : List α) (f g : α → ℚ) :
    (l.map fun x => f x + g x).sum = (l.map f).sum + (l.map g).sum := by
  induction l with
  | nil => simp
  | cons x t ih =>
    simp only [List.map_cons, List.sum_cons, ih]
    ring

theorem boOut_mass (pw pl pdr : ℚ) (max_wins : ℕ) (drawable : Bool)
    (h : pw + pl + (if drawable then pdr else 0) = 1) (e : (ℕ × ℕ) × ℚ) :
    totalMass (boLiveOut pw pl pdr max_wins drawable e) +
      totalMass (boFinOut pw pl max_wins e) = e.2 := by
  unfold boLiveOut boFinOut
  by_cases h1 : e.1.1 + 1 = max_wins <;> by_cases h2 : e.1.2 + 1 = max_wins <;>
    cases drawable <;> simp [totalMass, h1, h2] at h ⊢ <;>
    linear_combination e.2 * h

theorem boGameStep_mass (p_undrawable p_drawable : ℚ × ℚ) (max_wins : ℕ)
    (hu : p_undrawable.2 = 0) (acc : BoAcc) (drawable : Bool) :
    totalMass (boGameStep p_undrawable p_drawable max_wins acc drawable).live +
      totalMass (boGameStep p_undrawable p_drawable max_wins acc drawable).finished =
      totalMass acc.live + totalMass acc.finished := by
  unfold boGameStep
  simp only [totalMass_append, totalMass_flatMap]
  have h : (if drawable then p_drawable else p_undrawable).1 +
      (1 - (if drawable then p_drawable else p_undrawable).1 -
        (if drawable then p_drawable else p_undrawable).2) +
      (if drawable then (if drawable then p_drawable else p_undrawable).2 else 0) = 1 := by
    cases drawable <;> simp [hu] <;> ring
  have hpt := boOut_mass (if drawable then p_drawable else p_undrawable).1
    (1 - (if drawable then p_drawable else p_undrawable).1 -
      (if drawable then p_drawable else p_undrawable).2)
    (if drawable then p_drawable else p_undrawable).2 max_wins drawable h
  have hsum : (acc.live.map fun e => totalMass (boLiveOut
        (if drawable then p_drawable else p_undrawable).1
        (1 - (if drawable then p_drawable else p_undrawable).1 -
          (if drawable then p_drawable else p_undrawable).2)
        (if drawable then p_drawable else p_undrawable).2 max_wins drawable e)).sum +
      (acc.live.map fun e => totalMass (boFinOut
        (if drawable then p_drawable else p_undrawable).1
        (1 - (if drawable then p_drawable else p_undrawable).1 -
          (if drawable then p_drawable else p_undrawable).2) max_wins e)).sum =
      totalMass acc.live := by
    rw [← list_sum_map_add]
    unfold totalMass
    exact congrArg List.sum (List.map_congr_left fun e _ => hpt e)
  linarith [hsum]

theorem boFold_mass (p_undrawable p_drawable : ℚ × ℚ) (max_wins : ℕ)
    (hu : p_undrawable.2 = 0) (ds : List Bool) (acc : BoAcc) :
    totalMass (ds.foldl (boGameStep p_undrawable p_drawable max_wins) acc).live +
      totalMass (ds.foldl (boGameStep p_undrawable p_drawable max_wins) acc).finished =
      totalMass acc.live + totalMass acc.finished := by
  induction ds generalizing acc with
  | nil => rfl
  | cons b t ih =>
    rw [List.foldl_cons, ih, boGameStep_mass _ _ _ hu]

theorem boFold_p_loss (p_undrawable p_drawable : ℚ × ℚ) (max_wins : ℕ)
    (l : List Bool) (acc : BoAcc) :
    ((l ++ [false]).foldl (boGameStep p_undrawable p_drawable max_wins) acc).p_loss =
      1 - p_undrawable.1 - p_undrawable.2 := by
  rw [List.foldl_append]
  rfl

theorem boTieBreak_mass (pw pl : ℚ) (h : pw + pl = 1) (l : PScores) :
    totalMass (boTieBreak pw pl l) = totalMass l := by
  unfold boTieBreak
  rw [totalMass_flatMap]
  have hpt : ∀ e : (ℕ × ℕ) × ℚ,
      totalMass (if e.1.1 = e.1.2 then
        [((e.1.1 + 1, e.1.2), e.2 * pw), ((e.1.1, e.1.2 + 1), e.2 * pl)]
      else [e]) = e.2 := by
    intro e
    by_cases he : e.1.1 = e.1.2 <;> simp [totalMass, he] <;>
      linear_combination e.2 * h
  unfold totalMass
  exact congrArg List.sum (List.map_congr_left fun e _ => hpt e)

/-- Mass conservation for `_predict_bo_score`: for any game pattern ending
with an undrawable game, if the undrawable probability pair carries no draw
mass, the output contributions sum to exactly 1. -/
theorem predictBoScore_mass (p_undrawable p_drawable : ℚ × ℚ)
    (hu : p_undrawable.2 = 0) (l : List Bool) (max_wins : ℕ) :
    totalMass (predictBoScore p_undrawable p_drawable (l ++ [false]) max_wins) = 1 := by
  simp only [predictBoScore]
  rw [totalMass_append, boFold_p_loss, boTieBreak_mass _ _ (by rw [hu]; ring),
    boFold_mass _ _ _ hu]
  simp [totalMass]

/-- All contributions of a distribution are non-negative. -/
def entriesNonneg (l : PScores) : Prop := ∀ e ∈ l, 0 ≤ e.2

theorem boLiveOut_nonneg (pw pl pdr : ℚ) (max_wins : ℕ) (drawable : Bool)
    (hpw : 0 ≤ pw) (hpl : 0 ≤ pl) (hpd : 0 ≤ pdr) (e : (ℕ × ℕ) × ℚ)
    (he2 : 0 ≤ e.2) : entriesNonneg (boLiveOut pw pl pdr max_wins drawable e) := by
  intro e' hmem
  unfold boLiveOut at hmem
  simp only [List.mem_append] at hmem
  rcases hmem with (h | h) | h
  · split_ifs at h <;> simp at h
    subst h
    exact mul_nonneg he2 hpw
  · split_ifs at h <;> simp at h
    subst h
    exact mul_nonneg he2 hpl
  · split_ifs at h <;> simp at h
    subst h
    exact mul_nonneg he2 hpd

theorem boFinOut_nonneg (pw pl : ℚ) (max_wins : ℕ)
    (hpw : 0 ≤ pw) (hpl : 0 ≤ pl) (e : (ℕ × ℕ) × ℚ)
    (he2 : 0 ≤ e.2) : entriesNonneg (boFinOut pw pl max_wins e) := by
  intro e' hmem
  unfold boFinOut at hmem
  simp only [List.mem_append] at hmem
  rcases hmem with h | h
  · split_ifs at h <;> simp at h
    subst h
    exact mul_nonneg he2 hpw
  · split_ifs at h <;> simp at h
    subst h
    exact mul_nonneg he2 hpl

theorem boGameStep_nonneg (p_undrawable p_drawable : ℚ × ℚ) (max_wins : ℕ)
    (drawable : Bool)
    (hu1 : 0 ≤ p_undrawable.1) (hu0 : 0 ≤ p_undrawable.2)
    (hu2 : p_undrawable.1 + p_undrawable.2 ≤ 1)
    (hd1 : 0 ≤ p_drawable.1) (hd2 : 0 ≤ p_drawable.2)
    (hd3 : p_drawable.1 + p_drawable.2 ≤ 1)
    (acc : BoAcc) (hl : entriesNonneg acc.live) (hf : entriesNonneg acc.finished) :
    entriesNonneg (boGameStep p_undrawable p_drawable max_wins acc drawable).live ∧
    entriesNonneg (boGameStep p_undrawable p_drawable max_wins acc drawable).finished := by
  have hpw : 0 ≤ (if drawable then p_drawable else p_undrawable).1 := by
    cases drawable <;> simpa
  have hpd : 0 ≤ (if drawable then p_drawable else p_undrawable).2 := by
    cases drawable <;> simpa
  have hpl : 0 ≤ 1 - (if drawable then p_drawable else p_undrawable).1 -
      (if drawable then p_drawable else p_undrawable).2 := by
    cases drawable <;> simp <;> linarith
  constructor
  · intro e' he'
    obtain ⟨e, he, hmem⟩ := List.mem_flatMap.mp he'
    exact boLiveOut_nonneg _ _ _ _ _ hpw hpl hpd e (hl e he) e' hmem
  · intro e' he'
    simp only [boGameStep, List.mem_append] at he'
    rcases he' with he' | he'
    · exact hf e' he'
    · obtain ⟨e, he, hmem⟩ := List.mem_flatMap.mp he'
      exact boFinOut_nonneg _ _ _ hpw hpl e (hl e he) e' hmem

theorem boFold_nonneg (p_undrawable p_drawable : ℚ × ℚ) (max_wins : ℕ)
    (hu1 : 0 ≤ p_undrawable.1) (hu0 : 0 ≤ p_undrawable.2)
    (hu2 : p_undrawable.1 + p_undrawable.2 ≤ 1)
    (hd1 : 0 ≤ p_drawable.1) (hd2 : 0 ≤ p_drawable.2)
    (hd3 : p_drawable.1 + p_drawable.2 ≤ 1)
    (ds : List Bool) (acc : BoAcc)
    (hl : entriesNonneg acc.live) (hf : entriesNonneg acc.finished) :
    entriesNonneg (ds.foldl (boGameStep p_undrawable p_drawable max_wins) acc).live ∧
    entriesNonneg (ds.foldl (boGameStep p_undrawable p_drawable max_wins) acc).finished := by
  induction ds generalizing acc with
  | nil => exact ⟨hl, hf⟩
  | cons b t ih =>
    rw [List.foldl_cons]
    obtain ⟨h1, h2⟩ :=
      boGameStep_nonneg p_undrawable p_drawable max_wins b hu1 hu0 hu2 hd1 hd2 hd3 acc hl hf
    exact ih _ h1 h2

theorem boTieBreak_nonneg (pw pl : ℚ) (hpw : 0 ≤ pw) (hpl : 0 ≤ pl)
    (l : PScores) (hl : entriesNonneg l) : entriesNonneg (boTieBreak pw pl l) := by
  intro e' he'
  unfold boTieBreak at he'
  obtain ⟨e, he, hmem⟩ := List.mem_flatMap.mp he'
  have he2 := hl e he
  split_ifs at hmem <;> simp at hmem
  · rcases hmem with hmem | hmem <;> subst hmem
    · exact mul_nonneg he2 hpw
    · exact mul_nonneg he2 hpl
  · subst hmem
    exact he2

/-- Non-negativity for `_predict_bo_score` under the claim's constraints. -/
theorem predictBoScore_nonneg (p_undrawable p_drawable : ℚ × ℚ)
    (hu1 : 0 ≤ p_undrawable.1) (hu0 : 0 ≤ p_undrawable.2)
    (hu2 : p_undrawable.1 + p_undrawable.2 ≤ 1)
    (hd1 : 0 ≤ p_drawable.1) (hd2 : 0 ≤ p_drawable.2)
    (hd3 : p_drawable.1 + p_drawable.2 ≤ 1) (l : List Bool) (max_wins : ℕ) :
    entriesNonneg (predictBoScore p_undrawable p_drawable (l ++ [false]) max_wins) := by
  simp only [predictBoScore]
  obtain ⟨hlive, hfin⟩ := boFold_nonneg p_undrawable p_drawable max_wins
    hu1 hu0 hu2 hd1 hd2 hd3 (l ++ [false]) ⟨[((0, 0), 1)], [], 0⟩
    (by intro e he; simp at he; subst he; norm_num)
    (by intro e he; simp at he)
  intro e' he'
  rw [boFold_p_loss] at he'
  rcases List.mem_append.mp he' with h | h
  · exact boTieBreak_nonneg _ _ hu1 (by linarith) _ hlive e' h
  · exact hfin e' h

/-! ### The per-score probabilities and their sum -/

theorem probOf_nil (s : ℕ × ℕ) : probOf [] s = 0 := rfl

theorem probOf_cons (e : (ℕ × ℕ) × ℚ) (t : PScores) (s : ℕ × ℕ) :
    probOf (e :: t) s = (if e.1 = s then e.2 else 0) + probOf t s := by
  unfold probOf
  rw [List.filter_cons]
  by_cases h : e.1 = s <;> simp [h]

theorem probOf_nonneg (l : PScores) (h : entriesNonneg l) (s : ℕ × ℕ) :
    0 ≤ probOf l s := by
  apply List.sum_nonneg
  intro x hx
  obtain ⟨e, he, rfl⟩ := List.mem_map.mp hx
  exact h e (List.mem_of_mem_filter he)

theorem sum_map_ite_eq_zero (ks : List (ℕ × ℕ)) (a : ℕ × ℕ) (c : ℚ)
    (ha : a ∉ ks) : (ks.map fun k => if a = k then c else 0).sum = 0 := by
  apply List.sum_eq_zero
  intro x hx
  obtain ⟨k, hk, rfl⟩ := List.mem_map.mp hx
  rw [if_neg]
  intro h
  exact ha (h ▸ hk)

theorem sum_map_ite_eq (ks : List (ℕ × ℕ)) (hnd : ks.Nodup) (a : ℕ × ℕ)
    (ha : a ∈ ks) (c : ℚ) :
    (ks.map fun k => if a = k then c else 0).sum = c := by
  induction ks with
  | nil => cases ha
  | cons k0 rest ih =>
    rw [List.map_cons, List.sum_cons]
    by_cases h : a = k0
    · subst h
      rw [if_pos rfl, sum_map_ite_eq_zero rest a c (List.nodup_cons.mp hnd).1]
      ring
    · rw [if_neg h]
      have h' : a ∈ rest := by
        rcases List.mem_cons.mp ha with h1 | h1
        · exact absurd h1 h
        · exact h1
      rw [ih (List.nodup_cons.mp hnd).2 h']
      ring

theorem sum_probOf_of_keys (l : PScores) (ks : List (ℕ × ℕ)) (hnd : ks.Nodup)
    (hsub : ∀ e ∈ l, e.1 ∈ ks) : (ks.map (probOf l)).sum = totalMass l := by
  induction l with
  | nil =>
    rw [show totalMass [] = 0 from rfl]
    apply List.sum_eq_zero
    intro x hx
    obtain ⟨k, _, rfl⟩ := List.mem_map.mp hx
    rfl
  | cons e t ih =>
    have h1 : (ks.map (probOf (e :: t))).sum =
        (ks.map fun k => if e.1 = k then e.2 else 0).sum + (ks.map (probOf t)).sum := by
      rw [← list_sum_map_add]
      exact congrArg List.sum (List.map_congr_left fun k _ => probOf_cons e t k)
    rw [h1, sum_map_ite_eq ks hnd e.1 (hsub e (List.mem_cons_self e t)) e.2,
      ih fun e' he' => hsub e' (List.mem_cons_of_mem e he')]
    simp [totalMass]

/-- The per-score probabilities of a distribution sum to its total mass. -/
theorem scoreSum_eq_totalMass (l : PScores) : scoreSum l = totalMass l := by
  unfold scoreSum
  exact sum_probOf_of_keys l ((l.map (·.1)).dedup) (List.nodup_dedup _)
    fun e he => List.mem_dedup.mpr (List.mem_map_of_mem _ he)

/-- C1 (amended): for every supported match format, and every pair of
per-game probability pairs satisfying the claim's constraints
(`0 ≤ p_win`, `0 ≤ p_draw`, `p_win + p_draw ≤ 1`) *provided the undrawable
pair carries no draw mass* (`p_draw = 0`, which is what `predict(...,
drawable=False)` always returns in both predictor subclasses), the score
distribution returned by `predict_match_score` / `_predict_bo_score`
assigns a non-negative probability to each final score and its
probabilities sum to exactly 1. -/
theorem claim1_mass_conservation (fmt : String)
    (hfmt : fmt ∈ ["preseason", "regular", "best-of-5", "best-of-7"])
    (p_undrawable p_drawable : ℚ × ℚ)
    (hu1 : 0 ≤ p_undrawable.1) (hu0 : p_undrawable.2 = 0)
    (hu2 : p_undrawable.1 + p_undrawable.2 ≤ 1)
    (hd1 : 0 ≤ p_drawable.1) (hd2 : 0 ≤ p_drawable.2)
    (hd3 : p_drawable.1 + p_drawable.2 ≤ 1)
    (m : Game) (hm : m.match_format = fmt) (l : PScores)
    (hres : predictMatchScore p_undrawable p_drawable m = some l) :
    scoreSum l = 1 ∧ ∀ s, 0 ≤ probOf l s := by
  have hu0' : (0 : ℚ) ≤ p_undrawable.2 := le_of_eq hu0.symm
  have main : ∀ pat : List Bool, ∀ max_wins : ℕ,
      l = predictBoScore p_undrawable p_drawable (pat ++ [false]) max_wins →
      scoreSum l = 1 ∧ ∀ s, 0 ≤ probOf l s := by
    intro pat max_wins hl
    subst hl
    refine ⟨?_, ?_⟩
    · rw [scoreSum_eq_totalMass]
      exact predictBoScore_mass _ _ hu0 pat max_wins
    · intro s
      exact probOf_nonneg _
        (predictBoScore_nonneg _ _ hu1 hu0' hu2 hd1 hd2 hd3 pat max_wins) s
  unfold predictMatchScore at hres
  rw [hm] at hres
  fin_cases hfmt
  · exact main [true, false, true] 4
      (Option.some.inj (by rw [← hres]; rfl)).symm
  · exact main [true, false, true] 4
      (Option.some.inj (by rw [← hres]; rfl)).symm
  · exact main [false, false, false, false] 3
      (Option.some.inj (by rw [← hres]; rfl)).symm
  · exact main [false, false, false, false, false, false] 4
      (Option.some.inj (by rw [← hres]; rfl)).symm

/-- A best-of-5 match for exercising C1. -/
def c1Game : Game :=
  { teams := ("A", "B"), rosters := ([], []), full_rosters := ([], []),
    score := (0, 0), stage := "Stage 1", match_id := 21,
    match_format := "best-of-5", drawable := false }

/-- C1 counterexample: the claim quantifies over *every* pair of per-game
probabilities with `0 ≤ p_win`, `0 ≤ p_draw`, `p_win + p_draw ≤ 1`.  Taking
the undrawable pair `(0, 1)` (a legal choice under those constraints) for a
best-of-5 match, the code's undrawable fan-out drops the draw mass
(`p_loss = 1 - p_win - p_draw` but no draw branch is added), and the
returned probabilities sum to 0, not 1. -/
theorem claim1_counterexample :
    ((0 : ℚ) ≤ 0 ∧ (0 : ℚ) ≤ 1 ∧ (0 : ℚ) + 1 ≤ 1) ∧
    ((0 : ℚ) ≤ 1 / 4 ∧ (0 : ℚ) ≤ 1 / 4 ∧ (1 / 4 : ℚ) + 1 / 4 ≤ 1) ∧
    (predictMatchScore (0, 1) (1 / 4, 1 / 4) c1Game).map scoreSum = some 0 ∧
    (0 : ℚ) ≠ 1 := by
  refine ⟨by norm_num, by norm_num, ?_, by norm_num⟩
  have h : predictMatchScore (0, 1) (1 / 4, 1 / 4) c1Game =
      some (predictBoScore (0, 1) (1 / 4, 1 / 4)
        [false, false, false, false, false] 3) := rfl
  rw [h]
  refine congrArg some ?_
  rw [scoreSum_eq_totalMass]
  norm_num [predictBoScore, boGameStep, boLiveOut, boFinOut, boTieBreak,
    totalMass, List.foldl, List.flatMap]

/-- Witness instantiating `claim1_mass_conservation` at a concrete input. -/
theorem claim1_witness :
    scoreSum (predictBoScore (3 / 5, 0) (1 / 2, 1 / 10)
      [false, false, false, false, false] 3) = 1 ∧
    ∀ s, 0 ≤ probOf (predictBoScore (3 / 5, 0) (1 / 2, 1 / 10)
      [false, false, false, false, false] 3) s :=
  claim1_mass_conservation "best-of-5" (by simp)
    (3 / 5, 0) (1 / 2, 1 / 10)
    (by norm_num) rfl (by norm_num) (by norm_num) (by norm_num) (by norm_num)
    c1Game rfl _ rfl

/-- Witness instantiating `claim7_non_regular_map_frame`: the same playoff
game processed while its stage is already current leaves all map-diff
counters unchanged. -/
theorem claim7_witness :
    (updateStandings { c7State with stage := some "Stage 2" } c7Game).map_diffs =
      { c7State with stage := some "Stage 2" }.map_diffs ∧
    (updateStandings { c7State with stage := some "Stage 2" } c7Game).stage_map_diffs =
      { c7State with stage := some "Stage 2" }.stage_map_diffs ∧
    (updateStandings { c7State with stage := some "Stage 2" } c7Game).head_to_head_map_diffs =
      { c7State with stage := some "Stage 2" }.head_to_head_map_diffs ∧
    (updateStandings { c7State with stage := some "Stage 2" } c7Game).stage_head_to_head_map_diffs =
      { c7State with stage := some "Stage 2" }.stage_head_to_head_map_diffs :=
  claim7_non_regular_map_frame _ c7Game (by decide) (Or.inl (by decide))

end Owl
